import Mathlib

/-!
Verification of the zod binary-module decoder (`src/runtime/disassembler.rs`)
against its design specification.

The decoder is embedded shallowly: the Rust `Reader` (a byte buffer plus a
monotonically advancing offset) is modelled by passing the remaining byte list
explicitly — consuming a byte is returning the tail.  Bytes are `Nat`s; every
buffer produced by the encoder holds values below 256.

The decoder is embedded twice, differing only in what happens when a read
runs out of input.  The `Except RuntimeError` family renders the spec's §4.2
wording of the Byte Cursor, where an exhausted read reports
`UnexpectedEndOfInput`.  The `…P` family renders the reading discipline the
source's call sites pin down — `byte()`, `bytes(n)` and `dword()` return
plain values with no error path, so an exhausted read is a reader-side panic,
modelled as `PResult.abort`.  The two coincide on every input on which no
read runs out.  In both, the out-of-bounds `code[i]` of the positional join
in `parse_binary` is an `abort` as well, distinct from every typed error.
-/

namespace Zod

/-- Runtime errors of the decoder.  The structural variants are the ones raised
in `disassembler.rs`; `UnexpectedEndOfInput` is the Byte Cursor's failure.
Modelled from the spec where `runtime/error.rs` is not among the sources. -/
inductive RuntimeError where
  | ModuleToShort
  | WrongMagicHeader
  | WrongVersionHeader
  | InvalidSectionCode
  | InvalidValueType
  | InvalidInstruction
  | InvalidExportName
  | InvalidExportType
  | UnexpectedEndOfInput
  deriving DecidableEq, Repr

/-- Value types of the format: `I32 ↔ 0x7f`, `I64 ↔ 0x7e`. -/
inductive ValueType where
  | I32
  | I64
  deriving DecidableEq, Repr

/-- A function signature: parameter types paired with result types
(`Type` in the Rust AST; that name is taken in Lean). -/
abbrev Ty := List ValueType × List ValueType

/-- The declared-locals list of one code entry. -/
abbrev StackType := List ValueType

/-- Instructions of the format. -/
inductive Instr where
  | LocalGet (i : Nat)
  | I32Add
  deriving DecidableEq, Repr

/-- Export descriptors, currently function exports only. -/
inductive EDesc where
  | FuncExport (i : Nat)
  deriving DecidableEq, Repr

/-- An export: a name (UTF-8 byte string) and a descriptor. -/
structure Export where
  name : List Nat
  e_desc : EDesc
  deriving DecidableEq, Repr

/-- A function: its type-table index, declared locals and body. -/
structure Func where
  f_type : Int
  locals : List ValueType
  body : List Instr
  deriving DecidableEq, Repr

/-- A decoded module. -/
structure Module where
  types : List Ty
  exports : List Export
  funcs : List Func
  deriving DecidableEq, Repr

/-- Result of `parse_binary`: a module, a typed error, or `abort` — the
Rust panic raised by the out-of-bounds `code[i]` index in the positional
join, which is not a returned error value. -/
inductive PResult (α : Type) where
  | ok (val : α)
  | err (e : RuntimeError)
  | abort
  deriving DecidableEq, Repr

-- Section tag constants (`op_codes.rs` is not among the sources).
-- Modelled from the spec: Type `0x01`, Function `0x03`, Export `0x07`,
-- Code `0x0a`.
namespace SectionId

def TYPE : Nat := 0x01

def FUNC : Nat := 0x03

def EXPORT : Nat := 0x07

def CODE : Nat := 0x0a

end SectionId

/-- Modelled from the spec's §4.2 wording: the Byte Cursor's `readByte`
(`runtime/reader.rs` is not among the sources).  Consumes one byte or fails
with `UnexpectedEndOfInput` when none remain.  The call sites in
`disassembler.rs` show no such error path; `readByteP` below renders that
source discipline, and the two agree whenever a byte remains. -/
def readByte : List Nat → Except RuntimeError (Nat × List Nat)
  | [] => .error .UnexpectedEndOfInput
  | b :: r => .ok (b, r)

/-- Modelled from the spec's §4.2 wording: the Byte Cursor's `readBytes(n)`.
Consumes `n` bytes or fails with `UnexpectedEndOfInput` when fewer remain
(`readBytesP` below renders the source's panic-on-exhaustion discipline). -/
def readBytes (bs : List Nat) (n : Nat) : Except RuntimeError (List Nat × List Nat) :=
  if n ≤ bs.length then .ok (bs.take n, bs.drop n) else .error .UnexpectedEndOfInput

/-- Modelled from the spec's §4.2 wording: the Byte Cursor's `readDword`, a
4-byte little-endian 32-bit read (the encoder writes version 1 as
`01 00 00 00`).  Fails with `UnexpectedEndOfInput` when fewer than 4 bytes
remain (`readDwordP` below renders the source's panic-on-exhaustion
discipline). -/
def readDword : List Nat → Except RuntimeError (Nat × List Nat)
  | b0 :: b1 :: b2 :: b3 :: r => .ok (b0 + 256 * b1 + 65536 * b2 + 16777216 * b3, r)
  | _ => .error .UnexpectedEndOfInput

/-- Is `b` a UTF-8 continuation byte? -/
def utf8Cont (b : Nat) : Bool := 0x80 ≤ b && b ≤ 0xbf

/-- UTF-8 validity of a byte string, as checked by `std::str::from_utf8`
(RFC 3629: no overlong forms, no surrogates, no code points past U+10FFFF). -/
def utf8Valid : List Nat → Bool
  | [] => true
  | b :: r =>
    if b ≤ 0x7f then utf8Valid r
    else if b < 0xc2 then false
    else if b ≤ 0xdf then
      match r with
      | c1 :: r' => utf8Cont c1 && utf8Valid r'
      | [] => false
    else if b ≤ 0xef then
      match r with
      | c1 :: c2 :: r' =>
        (if b = 0xe0 then decide (0xa0 ≤ c1 ∧ c1 ≤ 0xbf)
         else if b = 0xed then decide (0x80 ≤ c1 ∧ c1 ≤ 0x9f)
         else utf8Cont c1) && utf8Cont c2 && utf8Valid r'
      | _ => false
    else if b ≤ 0xf4 then
      match r with
      | c1 :: c2 :: c3 :: r' =>
        (if b = 0xf0 then decide (0x90 ≤ c1 ∧ c1 ≤ 0xbf)
         else if b = 0xf4 then decide (0x80 ≤ c1 ∧ c1 ≤ 0x8f)
         else utf8Cont c1) && utf8Cont c2 && utf8Cont c3 && utf8Valid r'
      | _ => false
    else false

/-- `check_header` (disassembler.rs:6-20): fewer than 8 bytes is
`ModuleToShort`; then 4 magic bytes `\0asm`, then a 4-byte version that must
equal 1.  Returns the remaining input after the 8 header bytes. -/
def check_header (binary : List Nat) : Except RuntimeError (List Nat) :=
  if binary.length < 8 then .error .ModuleToShort
  else
    match readBytes binary 4 with
    | .error e => .error e
    | .ok (magic, r1) =>
      if magic ≠ [0x00, 0x61, 0x73, 0x6d] then .error .WrongMagicHeader
      else
        match readDword r1 with
        | .error e => .error e
        | .ok (version, r2) =>
          if version ≠ 1 then .error .WrongVersionHeader else .ok r2

/-- `parse_valuetype` (disassembler.rs:30-36): `0x7f ↦ I32`, `0x7e ↦ I64`,
anything else is `InvalidValueType`. -/
def parse_valuetype (binary : List Nat) : Except RuntimeError (ValueType × List Nat) :=
  match readByte binary with
  | .error e => .error e
  | .ok (b, r) =>
    if b = 0x7f then .ok (.I32, r)
    else if b = 0x7e then .ok (.I64, r)
    else .error .InvalidValueType

/-- The `for _ in 0..n` loops of disassembler.rs:43-45 and 49-51: parse `n`
value types in sequence. -/
def parse_valuetypes : Nat → List Nat → Except RuntimeError (List ValueType × List Nat)
  | 0, bs => .ok ([], bs)
  | n + 1, bs =>
    match parse_valuetype bs with
    | .error e => .error e
    | .ok (v, r) =>
      match parse_valuetypes n r with
      | .error e => .error e
      | .ok (vs, r') => .ok (v :: vs, r')

/-- One iteration of the signature loop (disassembler.rs:38-54): a func-kind
marker byte (read and discarded), a parameter count with that many value
types, a result count with that many value types. -/
def parse_sig (bs : List Nat) : Except RuntimeError (Ty × List Nat) :=
  match readByte bs with
  | .error e => .error e
  | .ok (_func, r1) =>
    match readByte r1 with
    | .error e => .error e
    | .ok (np, r2) =>
      match parse_valuetypes np r2 with
      | .error e => .error e
      | .ok (params, r3) =>
        match readByte r3 with
        | .error e => .error e
        | .ok (nr, r4) =>
          match parse_valuetypes nr r4 with
          | .error e => .error e
          | .ok (results, r5) => .ok ((params, results), r5)

/-- The signature loop of `parse_type_section`: `n` signatures in sequence. -/
def parse_sigs : Nat → List Nat → Except RuntimeError (List Ty × List Nat)
  | 0, bs => .ok ([], bs)
  | n + 1, bs =>
    match parse_sig bs with
    | .error e => .error e
    | .ok (t, r) =>
      match parse_sigs n r with
      | .error e => .error e
      | .ok (ts, r') => .ok (t :: ts, r')

/-- `parse_type_section` (disassembler.rs:22-57): tag byte `0x01` (else
`InvalidSectionCode`), a size byte (read and discarded), a count byte, then
that many signatures. -/
def parse_type_section (binary : List Nat) : Except RuntimeError (List Ty × List Nat) :=
  match readByte binary with
  | .error e => .error e
  | .ok (tag, r1) =>
    if tag ≠ SectionId.TYPE then .error .InvalidSectionCode
    else
      match readByte r1 with
      | .error e => .error e
      | .ok (_size, r2) =>
        match readByte r2 with
        | .error e => .error e
        | .ok (num_types, r3) => parse_sigs num_types r3

/-- The index loop of `parse_func_section` (disassembler.rs:68-70): `n`
type-table index bytes, each stored as an `i32`. -/
def parse_func_indices : Nat → List Nat → Except RuntimeError (List Int × List Nat)
  | 0, bs => .ok ([], bs)
  | n + 1, bs =>
    match readByte bs with
    | .error e => .error e
    | .ok (b, r) =>
      match parse_func_indices n r with
      | .error e => .error e
      | .ok (is, r') => .ok (Int.ofNat b :: is, r')

/-- `parse_func_section` (disassembler.rs:59-73): tag byte `0x03`, a size
byte (discarded), a count byte, then that many index bytes. -/
def parse_func_section (binary : List Nat) : Except RuntimeError (List Int × List Nat) :=
  match readByte binary with
  | .error e => .error e
  | .ok (tag, r1) =>
    if tag ≠ SectionId.FUNC then .error .InvalidSectionCode
    else
      match readByte r1 with
      | .error e => .error e
      | .ok (_size, r2) =>
        match readByte r2 with
        | .error e => .error e
        | .ok (num, r3) => parse_func_indices num r3

/-- One iteration of the export loop (disassembler.rs:84-97): a name-length
byte, that many name bytes (must be valid UTF-8, else `InvalidExportName`),
one reserved byte (read and discarded), and one export-kind byte that must be
`0x00` (else `InvalidExportType`).  The function index of the produced
descriptor is the literal `0`; no index byte is read. -/
def parse_one_export (bs : List Nat) : Except RuntimeError (Export × List Nat) :=
  match readByte bs with
  | .error e => .error e
  | .ok (length, r1) =>
    match readBytes r1 length with
    | .error e => .error e
    | .ok (nameBytes, r2) =>
      if utf8Valid nameBytes then
        match readByte r2 with
        | .error e => .error e
        | .ok (_zero, r3) =>
          match readByte r3 with
          | .error e => .error e
          | .ok (kind, r4) =>
            if kind = 0x00 then .ok ({ name := nameBytes, e_desc := .FuncExport 0 }, r4)
            else .error .InvalidExportType
      else .error .InvalidExportName

/-- The export loop of `parse_export_section`: `n` exports in sequence. -/
def parse_exports : Nat → List Nat → Except RuntimeError (List Export × List Nat)
  | 0, bs => .ok ([], bs)
  | n + 1, bs =>
    match parse_one_export bs with
    | .error e => .error e
    | .ok (ex, r) =>
      match parse_exports n r with
      | .error e => .error e
      | .ok (exs, r') => .ok (ex :: exs, r')

/-- `parse_export_section` (disassembler.rs:75-100): tag byte `0x07`, a size
byte (discarded), a count byte, then that many exports. -/
def parse_export_section (binary : List Nat) : Except RuntimeError (List Export × List Nat) :=
  match readByte binary with
  | .error e => .error e
  | .ok (tag, r1) =>
    if tag ≠ SectionId.EXPORT then .error .InvalidSectionCode
    else
      match readByte r1 with
      | .error e => .error e
      | .ok (_size, r2) =>
        match readByte r2 with
        | .error e => .error e
        | .ok (num, r3) => parse_exports num r3

/-- The locals loop of `parse_code_section` (disassembler.rs:117-124): `n`
value-type bytes with the same fixed mapping as `parse_valuetype`, matched
inline in the Rust code. -/
def parse_local_types : Nat → List Nat → Except RuntimeError (List ValueType × List Nat)
  | 0, bs => .ok ([], bs)
  | n + 1, bs =>
    match readByte bs with
    | .error e => .error e
    | .ok (b, r) =>
      match (if b = 0x7f then .ok ValueType.I32
             else if b = 0x7e then .ok ValueType.I64
             else Except.error RuntimeError.InvalidValueType : Except RuntimeError ValueType) with
      | .error e => .error e
      | .ok vt =>
        match parse_local_types n r with
        | .error e => .error e
        | .ok (vts, r') => .ok (vt :: vts, r')

/-- The instruction loop of `parse_code_section` (disassembler.rs:126-135):
read tag bytes until the end marker `0x0b`; `0x20` takes one index byte and
yields `LocalGet`, `0x6a` yields `I32Add`, anything else is
`InvalidInstruction`.  The loop has no fixed iteration count. -/
def parse_instrs : List Nat → Except RuntimeError (List Instr × List Nat)
  | [] => .error .UnexpectedEndOfInput
  | b :: r =>
    if b = 0x20 then
      match r with
      | [] => .error .UnexpectedEndOfInput
      | i :: r' =>
        match parse_instrs r' with
        | .error e => .error e
        | .ok (instrs, rest) => .ok (.LocalGet i :: instrs, rest)
    else if b = 0x6a then
      match parse_instrs r with
      | .error e => .error e
      | .ok (instrs, rest) => .ok (.I32Add :: instrs, rest)
    else if b = 0x0b then .ok ([], r)
    else .error .InvalidInstruction

/-- One iteration of the body loop (disassembler.rs:111-138): a body-size
byte (read and discarded), a local-count byte, that many local value types,
then the instruction stream up to its end marker. -/
def parse_body (bs : List Nat) : Except RuntimeError ((StackType × List Instr) × List Nat) :=
  match readByte bs with
  | .error e => .error e
  | .ok (_size, r1) =>
    match readByte r1 with
    | .error e => .error e
    | .ok (num_locals, r2) =>
      match parse_local_types num_locals r2 with
      | .error e => .error e
      | .ok (locals, r3) =>
        match parse_instrs r3 with
        | .error e => .error e
        | .ok (instrs, r4) => .ok ((locals, instrs), r4)

/-- The body loop of `parse_code_section`: `n` bodies in sequence. -/
def parse_bodies : Nat → List Nat → Except RuntimeError (List (StackType × List Instr) × List Nat)
  | 0, bs => .ok ([], bs)
  | n + 1, bs =>
    match parse_body bs with
    | .error e => .error e
    | .ok (c, r) =>
      match parse_bodies n r with
      | .error e => .error e
      | .ok (cs, r') => .ok (c :: cs, r')

/-- `parse_code_section` (disassembler.rs:102-141): tag byte `0x0a`, a size
byte (discarded), a count byte, then that many bodies. -/
def parse_code_section (binary : List Nat) :
    Except RuntimeError (List (StackType × List Instr) × List Nat) :=
  match readByte binary with
  | .error e => .error e
  | .ok (tag, r1) =>
    if tag ≠ SectionId.CODE then .error .InvalidSectionCode
    else
      match readByte r1 with
      | .error e => .error e
      | .ok (_size, r2) =>
        match readByte r2 with
        | .error e => .error e
        | .ok (num, r3) => parse_bodies num r3

/-- The indexed walk behind `join_code_func`: Rust's
`funcs.iter().enumerate().map(|(i, f)| ... code[i] ...)`.  The `code[i]`
index is unchecked in Rust and panics when `i ≥ code.length`; that panic is
the `none` outcome here. -/
def joinGo (code : List (StackType × List Instr)) :
    Nat → List Int → Option (List Func)
  | _, [] => some []
  | i, f :: fs =>
    match code.get? i with
    | none => none
    | some c =>
      match joinGo code (i + 1) fs with
      | none => none
      | some rest => some ({ f_type := f, locals := c.1, body := c.2 } :: rest)

/-- The positional join of `parse_binary` (disassembler.rs:150-160). -/
def join_code_func (funcs : List Int) (code : List (StackType × List Instr)) :
    Option (List Func) :=
  joinGo code 0 funcs

/-- `parse_binary` (disassembler.rs:143-167): header check, the four sections
in fixed order, then the positional join of function indices with code
entries.  `PResult.abort` is the Rust panic of the unchecked `code[i]`. -/
def parse_binary (binary : List Nat) : PResult Module :=
  match check_header binary with
  | .error e => .err e
  | .ok r0 =>
    match parse_type_section r0 with
    | .error e => .err e
    | .ok (types, r1) =>
      match parse_func_section r1 with
      | .error e => .err e
      | .ok (funcs, r2) =>
        match parse_export_section r2 with
        | .error e => .err e
        | .ok (exports, r3) =>
          match parse_code_section r3 with
          | .error e => .err e
          | .ok (code, _r4) =>
            match join_code_func funcs code with
            | none => .abort
            | some fs => .ok { types := types, exports := exports, funcs := fs }

/-! ## The source's reading discipline

The call sites in `disassembler.rs` consume every Reader read as a plain
value: `byte()` is compared (`!= section::TYPE`), ranged over
(`for _ in 0..binary.byte()`), matched and cast (`as i32`, `as usize`);
`bytes(n)` is handed to `from_utf8` as a slice; `dword()` is compared as an
integer.  The Reader therefore has no error path into the decoder, and
`UnexpectedEndOfInput` is constructed nowhere in `disassembler.rs`: running
out of input is a reader-side panic (an out-of-bounds read inside the absent
`reader.rs`), not a typed error value.  The `…P` family below embeds the
decoder with that discipline: each read yields its value or aborts the whole
decode (`PResult.abort`, the same outcome that models the positional-join
panic), while the decoder's own typed errors are unchanged.  On inputs where
no read runs out it coincides with the `Except`-based embedding above, whose
`UnexpectedEndOfInput` stands for the spec's §4.2 wording of the cursor. -/

/-- `byte()` as the call sites pin it down: a plain byte; exhaustion is a
reader-side panic. -/
def readByteP : List Nat → PResult (Nat × List Nat)
  | [] => .abort
  | b :: r => .ok (b, r)

/-- `bytes(n)` as the call sites pin it down: a plain slice; exhaustion is a
reader-side panic. -/
def readBytesP (bs : List Nat) (n : Nat) : PResult (List Nat × List Nat) :=
  if n ≤ bs.length then .ok (bs.take n, bs.drop n) else .abort

/-- `dword()` as the call sites pin it down: a plain little-endian 32-bit
integer; exhaustion is a reader-side panic. -/
def readDwordP : List Nat → PResult (Nat × List Nat)
  | b0 :: b1 :: b2 :: b3 :: r => .ok (b0 + 256 * b1 + 65536 * b2 + 16777216 * b3, r)
  | _ => .abort

/-- `check_header` under the source's reading discipline. -/
def check_headerP (binary : List Nat) : PResult (List Nat) :=
  if binary.length < 8 then .err .ModuleToShort
  else
    match readBytesP binary 4 with
    | .err e => .err e
    | .abort => .abort
    | .ok (magic, r1) =>
      if magic ≠ [0x00, 0x61, 0x73, 0x6d] then .err .WrongMagicHeader
      else
        match readDwordP r1 with
        | .err e => .err e
        | .abort => .abort
        | .ok (version, r2) =>
          if version ≠ 1 then .err .WrongVersionHeader else .ok r2

/-- `parse_valuetype` under the source's reading discipline. -/
def parse_valuetypeP (binary : List Nat) : PResult (ValueType × List Nat) :=
  match readByteP binary with
  | .err e => .err e
  | .abort => .abort
  | .ok (b, r) =>
    if b = 0x7f then .ok (.I32, r)
    else if b = 0x7e then .ok (.I64, r)
    else .err .InvalidValueType

/-- The value-type loops under the source's reading discipline. -/
def parse_valuetypesP : Nat → List Nat → PResult (List ValueType × List Nat)
  | 0, bs => .ok ([], bs)
  | n + 1, bs =>
    match parse_valuetypeP bs with
    | .err e => .err e
    | .abort => .abort
    | .ok (v, r) =>
      match parse_valuetypesP n r with
      | .err e => .err e
      | .abort => .abort
      | .ok (vs, r') => .ok (v :: vs, r')

/-- One signature under the source's reading discipline. -/
def parse_sigP (bs : List Nat) : PResult (Ty × List Nat) :=
  match readByteP bs with
  | .err e => .err e
  | .abort => .abort
  | .ok (_func, r1) =>
    match readByteP r1 with
    | .err e => .err e
    | .abort => .abort
    | .ok (np, r2) =>
      match parse_valuetypesP np r2 with
      | .err e => .err e
      | .abort => .abort
      | .ok (params, r3) =>
        match readByteP r3 with
        | .err e => .err e
        | .abort => .abort
        | .ok (nr, r4) =>
          match parse_valuetypesP nr r4 with
          | .err e => .err e
          | .abort => .abort
          | .ok (results, r5) => .ok ((params, results), r5)

/-- The signature loop under the source's reading discipline. -/
def parse_sigsP : Nat → List Nat → PResult (List Ty × List Nat)
  | 0, bs => .ok ([], bs)
  | n + 1, bs =>
    match parse_sigP bs with
    | .err e => .err e
    | .abort => .abort
    | .ok (t, r) =>
      match parse_sigsP n r with
      | .err e => .err e
      | .abort => .abort
      | .ok (ts, r') => .ok (t :: ts, r')

/-- `parse_type_section` under the source's reading discipline. -/
def parse_type_sectionP (binary : List Nat) : PResult (List Ty × List Nat) :=
  match readByteP binary with
  | .err e => .err e
  | .abort => .abort
  | .ok (tag, r1) =>
    if tag ≠ SectionId.TYPE then .err .InvalidSectionCode
    else
      match readByteP r1 with
      | .err e => .err e
      | .abort => .abort
      | .ok (_size, r2) =>
        match readByteP r2 with
        | .err e => .err e
        | .abort => .abort
        | .ok (num_types, r3) => parse_sigsP num_types r3

/-- The function-index loop under the source's reading discipline. -/
def parse_func_indicesP : Nat → List Nat → PResult (List Int × List Nat)
  | 0, bs => .ok ([], bs)
  | n + 1, bs =>
    match readByteP bs with
    | .err e => .err e
    | .abort => .abort
    | .ok (b, r) =>
      match parse_func_indicesP n r with
      | .err e => .err e
      | .abort => .abort
      | .ok (is, r') => .ok (Int.ofNat b :: is, r')

/-- `parse_func_section` under the source's reading discipline. -/
def parse_func_sectionP (binary : List Nat) : PResult (List Int × List Nat) :=
  match readByteP binary with
  | .err e => .err e
  | .abort => .abort
  | .ok (tag, r1) =>
    if tag ≠ SectionId.FUNC then .err .InvalidSectionCode
    else
      match readByteP r1 with
      | .err e => .err e
      | .abort => .abort
      | .ok (_size, r2) =>
        match readByteP r2 with
        | .err e => .err e
        | .abort => .abort
        | .ok (num, r3) => parse_func_indicesP num r3

/-- One export entry under the source's reading discipline. -/
def parse_one_exportP (bs : List Nat) : PResult (Export × List Nat) :=
  match readByteP bs with
  | .err e => .err e
  | .abort => .abort
  | .ok (length, r1) =>
    match readBytesP r1 length with
    | .err e => .err e
    | .abort => .abort
    | .ok (nameBytes, r2) =>
      if utf8Valid nameBytes then
        match readByteP r2 with
        | .err e => .err e
        | .abort => .abort
        | .ok (_zero, r3) =>
          match readByteP r3 with
          | .err e => .err e
          | .abort => .abort
          | .ok (kind, r4) =>
            if kind = 0x00 then .ok ({ name := nameBytes, e_desc := .FuncExport 0 }, r4)
            else .err .InvalidExportType
      else .err .InvalidExportName

/-- The export loop under the source's reading discipline. -/
def parse_exportsP : Nat → List Nat → PResult (List Export × List Nat)
  | 0, bs => .ok ([], bs)
  | n + 1, bs =>
    match parse_one_exportP bs with
    | .err e => .err e
    | .abort => .abort
    | .ok (ex, r) =>
      match parse_exportsP n r with
      | .err e => .err e
      | .abort => .abort
      | .ok (exs, r') => .ok (ex :: exs, r')

/-- `parse_export_section` under the source's reading discipline. -/
def parse_export_sectionP (binary : List Nat) : PResult (List Export × List Nat) :=
  match readByteP binary with
  | .err e => .err e
  | .abort => .abort
  | .ok (tag, r1) =>
    if tag ≠ SectionId.EXPORT then .err .InvalidSectionCode
    else
      match readByteP r1 with
      | .err e => .err e
      | .abort => .abort
      | .ok (_size, r2) =>
        match readByteP r2 with
        | .err e => .err e
        | .abort => .abort
        | .ok (num, r3) => parse_exportsP num r3

/-- The locals loop under the source's reading discipline. -/
def parse_local_typesP : Nat → List Nat → PResult (List ValueType × List Nat)
  | 0, bs => .ok ([], bs)
  | n + 1, bs =>
    match readByteP bs with
    | .err e => .err e
    | .abort => .abort
    | .ok (b, r) =>
      match (if b = 0x7f then .ok ValueType.I32
             else if b = 0x7e then .ok ValueType.I64
             else Except.error RuntimeError.InvalidValueType : Except RuntimeError ValueType) with
      | .error e => .err e
      | .ok vt =>
        match parse_local_typesP n r with
        | .err e => .err e
        | .abort => .abort
        | .ok (vts, r') => .ok (vt :: vts, r')

/-- The instruction loop under the source's reading discipline. -/
def parse_instrsP : List Nat → PResult (List Instr × List Nat)
  | [] => .abort
  | b :: r =>
    if b = 0x20 then
      match r with
      | [] => .abort
      | i :: r' =>
        match parse_instrsP r' with
        | .err e => .err e
        | .abort => .abort
        | .ok (instrs, rest) => .ok (.LocalGet i :: instrs, rest)
    else if b = 0x6a then
      match parse_instrsP r with
      | .err e => .err e
      | .abort => .abort
      | .ok (instrs, rest) => .ok (.I32Add :: instrs, rest)
    else if b = 0x0b then .ok ([], r)
    else .err .InvalidInstruction

/-- One code entry under the source's reading discipline. -/
def parse_bodyP (bs : List Nat) : PResult ((StackType × List Instr) × List Nat) :=
  match readByteP bs with
  | .err e => .err e
  | .abort => .abort
  | .ok (_size, r1) =>
    match readByteP r1 with
    | .err e => .err e
    | .abort => .abort
    | .ok (num_locals, r2) =>
      match parse_local_typesP num_locals r2 with
      | .err e => .err e
      | .abort => .abort
      | .ok (locals, r3) =>
        match parse_instrsP r3 with
        | .err e => .err e
        | .abort => .abort
        | .ok (instrs, r4) => .ok ((locals, instrs), r4)

/-- The body loop under the source's reading discipline. -/
def parse_bodiesP : Nat → List Nat → PResult (List (StackType × List Instr) × List Nat)
  | 0, bs => .ok ([], bs)
  | n + 1, bs =>
    match parse_bodyP bs with
    | .err e => .err e
    | .abort => .abort
    | .ok (c, r) =>
      match parse_bodiesP n r with
      | .err e => .err e
      | .abort => .abort
      | .ok (cs, r') => .ok (c :: cs, r')

/-- `parse_code_section` under the source's reading discipline. -/
def parse_code_sectionP (binary : List Nat) :
    PResult (List (StackType × List Instr) × List Nat) :=
  match readByteP binary with
  | .err e => .err e
  | .abort => .abort
  | .ok (tag, r1) =>
    if tag ≠ SectionId.CODE then .err .InvalidSectionCode
    else
      match readByteP r1 with
      | .err e => .err e
      | .abort => .abort
      | .ok (_size, r2) =>
        match readByteP r2 with
        | .err e => .err e
        | .abort => .abort
        | .ok (num, r3) => parse_bodiesP num r3

/-- `parse_binary` under the source's reading discipline: the typed errors
are exactly the ones `disassembler.rs` constructs, and both running out of
input and the unchecked positional join are panics. -/
def parse_binaryP (binary : List Nat) : PResult Module :=
  match check_headerP binary with
  | .err e => .err e
  | .abort => .abort
  | .ok r0 =>
    match parse_type_sectionP r0 with
    | .err e => .err e
    | .abort => .abort
    | .ok (types, r1) =>
      match parse_func_sectionP r1 with
      | .err e => .err e
      | .abort => .abort
      | .ok (funcs, r2) =>
        match parse_export_sectionP r2 with
        | .err e => .err e
        | .abort => .abort
        | .ok (exports, r3) =>
          match parse_code_sectionP r3 with
          | .err e => .err e
          | .abort => .abort
          | .ok (code, _r4) =>
            match join_code_func funcs code with
            | none => .abort
            | some fs => .ok { types := types, exports := exports, funcs := fs }

/-! ## The encoder

The compiler (`compiler.rs`) is not among the sources; the encoder below is
modelled from the spec's bit-exact layout (§4.3), to be compared with the
decoder for the round-trip law. -/

/-- Modelled from the spec: the encoding byte of a value type
(`I32 ↦ 0x7f`, `I64 ↦ 0x7e`). -/
def encode_valuetype : ValueType → Nat
  | .I32 => 0x7f
  | .I64 => 0x7e

/-- Modelled from the spec: one Type-section signature — a func-kind marker
`0x60`, a parameter count with that many value-type bytes, a result count
with that many value-type bytes. -/
def encode_sig (t : Ty) : List Nat :=
  0x60 :: t.1.length :: (t.1.map encode_valuetype ++ t.2.length :: t.2.map encode_valuetype)

/-- Modelled from the spec: the Type section — tag `0x01`, one size byte
(the payload length), one count byte, then the signatures. -/
def encode_type_section (ts : List Ty) : List Nat :=
  let payload := ts.length :: (ts.map encode_sig).flatten
  SectionId.TYPE :: payload.length :: payload

/-- Modelled from the spec: the Function section — tag `0x03`, size byte,
count byte, then one type-table index byte per function. -/
def encode_func_section (fs : List Func) : List Nat :=
  let payload := fs.length :: fs.map (fun f => f.f_type.toNat)
  SectionId.FUNC :: payload.length :: payload

/-- Modelled from the spec: one Export-section entry — a name-length byte,
the name bytes, a reserved zero byte, the export-kind byte `0x00`, then the
exported function's index byte. -/
def encode_export (e : Export) : List Nat :=
  e.name.length :: (e.name ++ [0x00, 0x00, match e.e_desc with | .FuncExport i => i])

/-- Modelled from the spec: the Export section — tag `0x07`, size byte,
count byte, then the entries. -/
def encode_export_section (es : List Export) : List Nat :=
  let payload := es.length :: (es.map encode_export).flatten
  SectionId.EXPORT :: payload.length :: payload

/-- Modelled from the spec: instruction encodings — `LocalGet i ↦ 0x20 i`,
`I32Add ↦ 0x6a`. -/
def encode_instr : Instr → List Nat
  | .LocalGet i => [0x20, i]
  | .I32Add => [0x6a]

/-- Modelled from the spec: one Code-section body — a body-size byte, a
local-count byte, the local value-type bytes, the instruction stream, and
the end marker `0x0b`. -/
def encode_body (f : Func) : List Nat :=
  let payload := f.locals.length ::
    (f.locals.map encode_valuetype ++ (f.body.map encode_instr).flatten ++ [0x0b])
  payload.length :: payload

/-- Modelled from the spec: the Code section — tag `0x0a`, size byte, count
byte, then the bodies in Function-section order. -/
def encode_code_section (fs : List Func) : List Nat :=
  let payload := fs.length :: (fs.map encode_body).flatten
  SectionId.CODE :: payload.length :: payload

/-- Modelled from the spec: a whole module — the magic `\0asm`, the version
field 1, then the four sections in order. -/
def encode_module (m : Module) : List Nat :=
  [0x00, 0x61, 0x73, 0x6d, 0x01, 0x00, 0x00, 0x00] ++
    encode_type_section m.types ++ encode_func_section m.funcs ++
    encode_export_section m.exports ++ encode_code_section m.funcs

/-- Bound of one instruction's operands for the single-byte format. -/
def instrByteSized : Instr → Prop
  | .LocalGet i => i ≤ 255
  | .I32Add => True

instance : DecidablePred instrByteSized := fun i => by
  cases i <;> simp [instrByteSized] <;> infer_instance

/-- Bound of an export descriptor's index for the single-byte format. -/
def edescByteSized : EDesc → Prop
  | .FuncExport i => i ≤ 255

instance : DecidablePred edescByteSized := fun e => by
  cases e <;> simp [edescByteSized] <;> infer_instance

/-- Well-formedness of a module description for the single-byte format: at
most 255 of every countable item, type indices that fit one byte, and
UTF-8-valid export names. -/
def WellFormed (m : Module) : Prop :=
  m.types.length ≤ 255 ∧
  (∀ t ∈ m.types, t.1.length ≤ 255 ∧ t.2.length ≤ 255) ∧
  m.funcs.length ≤ 255 ∧
  (∀ f ∈ m.funcs, 0 ≤ f.f_type ∧ f.f_type ≤ 255 ∧ f.locals.length ≤ 255 ∧
    f.body.length ≤ 255 ∧ ∀ ins ∈ f.body, instrByteSized ins) ∧
  m.exports.length ≤ 255 ∧
  (∀ e ∈ m.exports, e.name.length ≤ 255 ∧ utf8Valid e.name = true ∧
    edescByteSized e.e_desc)

instance (m : Module) : Decidable (WellFormed m) := by
  unfold WellFormed
  infer_instance

/-! ## Round-trip lemmas

Each decoder piece, run on the corresponding encoder piece followed by any
trailing bytes, returns the original value and the trailing bytes. -/

lemma readBytes_exact (xs r : List Nat) : readBytes (xs ++ r) xs.length = .ok (xs, r) := by
  simp [readBytes]

lemma parse_valuetype_enc (v : ValueType) (r : List Nat) :
    parse_valuetype (encode_valuetype v :: r) = .ok (v, r) := by
  cases v <;> rfl

lemma parse_valuetypes_enc (vs : List ValueType) (r : List Nat) :
    parse_valuetypes vs.length (vs.map encode_valuetype ++ r) = .ok (vs, r) := by
  induction vs with
  | nil => rfl
  | cons v vs ih => simp [parse_valuetypes, parse_valuetype_enc, ih]

lemma parse_sig_enc (t : Ty) (r : List Nat) : parse_sig (encode_sig t ++ r) = .ok (t, r) := by
  obtain ⟨ps, rs⟩ := t
  simp [encode_sig, parse_sig, readByte, List.cons_append, List.append_assoc,
    parse_valuetypes_enc]

lemma parse_sigs_enc (ts : List Ty) (r : List Nat) :
    parse_sigs ts.length ((ts.map encode_sig).flatten ++ r) = .ok (ts, r) := by
  induction ts with
  | nil => rfl
  | cons t ts ih => simp [parse_sigs, List.append_assoc, parse_sig_enc, ih]

lemma parse_type_section_enc (ts : List Ty) (r : List Nat) :
    parse_type_section (encode_type_section ts ++ r) = .ok (ts, r) := by
  simp [encode_type_section, parse_type_section, readByte, SectionId.TYPE, parse_sigs_enc]

lemma parse_func_indices_enc (fs : List Func) (r : List Nat)
    (h : ∀ f ∈ fs, 0 ≤ f.f_type) :
    parse_func_indices fs.length (fs.map (fun f => f.f_type.toNat) ++ r) =
      .ok (fs.map Func.f_type, r) := by
  induction fs with
  | nil => rfl
  | cons f fs ih =>
    have hf0 : 0 ≤ f.f_type := h f (by simp)
    have h0 : Int.ofNat f.f_type.toNat = f.f_type := Int.toNat_of_nonneg hf0
    simp [parse_func_indices, readByte, h0, hf0, ih fun g hg => h g (by simp [hg])]

lemma parse_func_section_enc (fs : List Func) (r : List Nat)
    (h : ∀ f ∈ fs, 0 ≤ f.f_type) :
    parse_func_section (encode_func_section fs ++ r) = .ok (fs.map Func.f_type, r) := by
  simp [encode_func_section, parse_func_section, readByte, SectionId.FUNC,
    parse_func_indices_enc fs r h]

lemma parse_export_section_nil (r : List Nat) :
    parse_export_section (encode_export_section [] ++ r) = .ok ([], r) := rfl

lemma parse_instrs_localget (i : Nat) (r : List Nat) :
    parse_instrs (0x20 :: i :: r) =
      match parse_instrs r with
      | .error e => .error e
      | .ok (instrs, rest) => .ok (.LocalGet i :: instrs, rest) := by
  simp [parse_instrs]

lemma parse_instrs_i32add (r : List Nat) :
    parse_instrs (0x6a :: r) =
      match parse_instrs r with
      | .error e => .error e
      | .ok (instrs, rest) => .ok (.I32Add :: instrs, rest) := by
  rw [parse_instrs.eq_def]; simp

lemma parse_instrs_endmark (r : List Nat) : parse_instrs (0x0b :: r) = .ok ([], r) := by
  rw [parse_instrs.eq_def]; simp

lemma parse_instrs_enc (ins : List Instr) (r : List Nat) :
    parse_instrs ((ins.map encode_instr).flatten ++ (0x0b :: r)) = .ok (ins, r) := by
  induction ins with
  | nil =>
    simp only [List.map_nil, List.flatten_nil, List.nil_append]
    exact parse_instrs_endmark r
  | cons i ins ih =>
    cases i with
    | LocalGet j =>
      simp only [List.map_cons, List.flatten_cons, encode_instr, List.cons_append,
        List.nil_append, parse_instrs_localget, ih]
    | I32Add =>
      simp only [List.map_cons, List.flatten_cons, encode_instr, List.cons_append,
        List.nil_append, parse_instrs_i32add, ih]

lemma parse_local_types_enc (vs : List ValueType) (r : List Nat) :
    parse_local_types vs.length (vs.map encode_valuetype ++ r) = .ok (vs, r) := by
  induction vs with
  | nil => rfl
  | cons v vs ih => cases v <;> simp [parse_local_types, encode_valuetype, readByte, ih]

lemma parse_body_enc (f : Func) (r : List Nat) :
    parse_body (encode_body f ++ r) = .ok ((f.locals, f.body), r) := by
  simp [encode_body, parse_body, readByte, List.cons_append, List.append_assoc,
    parse_local_types_enc, parse_instrs_enc]

lemma parse_bodies_enc (fs : List Func) (r : List Nat) :
    parse_bodies fs.length ((fs.map encode_body).flatten ++ r) =
      .ok (fs.map (fun f => (f.locals, f.body)), r) := by
  induction fs with
  | nil => rfl
  | cons f fs ih => simp [parse_bodies, List.append_assoc, parse_body_enc, ih]

lemma parse_code_section_enc (fs : List Func) (r : List Nat) :
    parse_code_section (encode_code_section fs ++ r) =
      .ok (fs.map (fun f => (f.locals, f.body)), r) := by
  simp [encode_code_section, parse_code_section, readByte, SectionId.CODE, parse_bodies_enc]

lemma joinGo_enc (fs : List Func) (pre : List (StackType × List Instr)) :
    joinGo (pre ++ fs.map (fun f => (f.locals, f.body))) pre.length (fs.map Func.f_type) =
      some fs := by
  induction fs generalizing pre with
  | nil => rfl
  | cons f fs ih =>
    have hget : (pre ++ (f.locals, f.body) :: fs.map (fun f => (f.locals, f.body)))[pre.length]? =
        some (f.locals, f.body) := by
      rw [List.getElem?_append_right (Nat.le_refl _)]
      simp
    have hrec := ih (pre ++ [(f.locals, f.body)])
    simp only [List.append_assoc, List.singleton_append, List.length_append,
      List.length_singleton] at hrec
    simp only [List.map_cons, joinGo, List.get?_eq_getElem?, hget, hrec]

lemma join_code_func_enc (fs : List Func) :
    join_code_func (fs.map Func.f_type) (fs.map fun f => (f.locals, f.body)) = some fs :=
  joinGo_enc fs []

lemma check_header_ok (r : List Nat) :
    check_header ([0x00, 0x61, 0x73, 0x6d, 0x01, 0x00, 0x00, 0x00] ++ r) = .ok r := by
  have h8 : ¬ (([0x00, 0x61, 0x73, 0x6d, 0x01, 0x00, 0x00, 0x00] ++ r).length < 8) := by
    simp
  simp [check_header, h8, readBytes, readDword]

/-- C1 counterexample: a well-formed module with one export (function index 0,
name "a").  The decoder never consumes the index byte the spec's encoder
writes, so the Code-section tag read lands on that leftover byte and decoding
fails with `InvalidSectionCode` instead of returning the module. -/
theorem claim_C1_counterexample :
    WellFormed { types := [([], [])],
                 exports := [{ name := [0x61], e_desc := .FuncExport 0 }],
                 funcs := [{ f_type := 0, locals := [], body := [] }] } ∧
    parse_binary (encode_module
      { types := [([], [])],
        exports := [{ name := [0x61], e_desc := .FuncExport 0 }],
        funcs := [{ f_type := 0, locals := [], body := [] }] }) =
      .err .InvalidSectionCode := by
  constructor
  · decide
  · rfl

/-- C1 (amended): the round-trip law holds for every well-formed module
description whose export table is empty — decoding the encoder's output
yields the module back, with equal type, function and export tables.  (With a
non-empty export table the decoder does not consume the encoder's
function-index byte and the round trip fails; see the counterexample.) -/
theorem claim_C1_roundtrip (m : Module) (hwf : WellFormed m) (hexp : m.exports = []) :
    parse_binary (encode_module m) = .ok m := by
  obtain ⟨-, -, -, hfs, -, -⟩ := hwf
  have hnn : ∀ f ∈ m.funcs, 0 ≤ f.f_type := fun f hf => (hfs f hf).1
  have hfunc := fun r => parse_func_section_enc m.funcs r hnn
  have hassoc : encode_module m =
      [0x00, 0x61, 0x73, 0x6d, 0x01, 0x00, 0x00, 0x00] ++
        (encode_type_section m.types ++ (encode_func_section m.funcs ++
          (encode_export_section m.exports ++ (encode_code_section m.funcs ++ [])))) := by
    simp [encode_module]
  rw [hassoc]
  simp only [parse_binary, check_header_ok, parse_type_section_enc, hfunc, hexp,
    parse_export_section_nil, parse_code_section_enc, join_code_func_enc]
  rw [← hexp]

/-- C1 witness: the round-trip law applied to the concrete "add" module with
its export table emptied. -/
theorem claim_C1_witness :
    parse_binary (encode_module
      { types := [([.I32, .I32], [.I32])],
        exports := [],
        funcs := [{ f_type := 0, locals := [],
                    body := [.LocalGet 0, .LocalGet 1, .I32Add] }] }) =
      .ok { types := [([.I32, .I32], [.I32])],
            exports := [],
            funcs := [{ f_type := 0, locals := [],
                        body := [.LocalGet 0, .LocalGet 1, .I32Add] }] } :=
  claim_C1_roundtrip _ (by decide) rfl

/-- C2 counterexample: an Export section with one entry whose trailing bytes
are reserved `0x00`, kind `0x00`, index `0x05`.  The claim predicts the
decoder consumes the index byte `0x05` and returns a function export with
index 5 and nothing left over; the code stops after the kind byte, leaves
`0x05` unconsumed, and returns index 0. -/
theorem claim_C2_counterexample :
    parse_export_section [0x07, 0x06, 0x01, 0x01, 0x61, 0x00, 0x00, 0x05] =
      .ok ([{ name := [0x61], e_desc := .FuncExport 0 }], [0x05]) ∧
    parse_export_section [0x07, 0x06, 0x01, 0x01, 0x61, 0x00, 0x00, 0x05] ≠
      .ok ([{ name := [0x61], e_desc := .FuncExport 5 }], []) := by
  refine ⟨rfl, fun h => ?_⟩
  have h2 : (Except.ok ([{ name := [0x61], e_desc := EDesc.FuncExport 0 }], [0x05]) :
      Except RuntimeError (List Export × List Nat)) =
      .ok ([{ name := [0x61], e_desc := .FuncExport 5 }], []) := by
    rw [← h]
    rfl
  simp at h2

/-- C2 (amended): for every export entry laid out as one name-length byte,
that many UTF-8 name bytes, a reserved byte and the export-kind byte `0x00`,
the decoder consumes exactly those bytes — it does not read a function-index
byte — and produces a function export whose index is the constant 0.  The
bytes after the kind byte (where the spec's encoder puts the index byte) are
left as the unconsumed remainder. -/
theorem claim_C2_export_entry (name : List Nat) (z : Nat) (r : List Nat)
    (hu : utf8Valid name = true) :
    parse_one_export (name.length :: (name ++ (z :: (0x00 :: r)))) =
      .ok ({ name := name, e_desc := .FuncExport 0 }, r) := by
  simp [parse_one_export, readByte, readBytes_exact, hu]

/-- C2 witness: the amended entry contract at the concrete entry
`[1, 'a', 0x00, 0x00, 0x05]` — the `0x05` byte is left unconsumed. -/
theorem claim_C2_witness :
    parse_one_export [0x01, 0x61, 0x00, 0x00, 0x05] =
      .ok ({ name := [0x61], e_desc := .FuncExport 0 }, [0x05]) :=
  claim_C2_export_entry [0x61] 0x00 [0x05] (by decide)

/-- Positional join: when enough code entries remain past index `i`, the walk
succeeds. -/
lemma joinGo_isSome (fs : List Int) :
    ∀ (i : Nat) (code : List (StackType × List Instr)), i + fs.length ≤ code.length →
      (joinGo code i fs).isSome = true := by
  induction fs with
  | nil => intro i code h; rfl
  | cons f fs ih =>
    intro i code h
    have hi : i < code.length := by simp at h; omega
    obtain ⟨r, hr⟩ := Option.isSome_iff_exists.mp (ih (i + 1) code (by simp at h ⊢; omega))
    simp only [joinGo, List.get?_eq_getElem?, List.getElem?_eq_getElem hi, hr,
      Option.isSome_some]

/-- Positional join: with a non-empty index list and too few code entries,
the walk hits the out-of-bounds index. -/
lemma joinGo_none (fs : List Int) :
    ∀ (i : Nat) (code : List (StackType × List Instr)), fs ≠ [] →
      code.length < i + fs.length → joinGo code i fs = none := by
  induction fs with
  | nil => intro i code hne h; exact absurd rfl hne
  | cons f fs ih =>
    intro i code hne h
    rcases Nat.lt_or_ge i code.length with hi | hi
    · have hfs : fs ≠ [] := by
        rintro rfl
        simp at h
        omega
      have hr := ih (i + 1) code hfs (by simp at h ⊢; omega)
      simp only [joinGo, List.get?_eq_getElem?, List.getElem?_eq_getElem hi, hr]
    · have hnone : code[i]? = none := List.getElem?_eq_none hi
      simp only [joinGo, List.get?_eq_getElem?, hnone]

/-- C3 counterexample: a buffer all four section parsers accept (valid header,
empty Type section, Function section declaring one function, empty Export
section, empty Code section).  The Function count exceeds the Code body
count, so the positional join indexes `code[0]` out of bounds — a Rust panic
(`abort` here), not a returned error value. -/
theorem claim_C3_counterexample :
    parse_binary [0x00, 0x61, 0x73, 0x6d, 0x01, 0x00, 0x00, 0x00,
      0x01, 0x01, 0x00, 0x03, 0x02, 0x01, 0x00, 0x07, 0x01, 0x00,
      0x0a, 0x01, 0x00] = .abort := rfl

/-- C3 (amended): on any input accepted by the header check and all four
section parsers, `parse_binary` returns a module when the Function section
declares no more functions than the Code section has bodies; when it declares
more, the positional join performs an out-of-bounds `code[i]` access — a
panic, not an error/result value. -/
theorem claim_C3_totality (bs r0 r1 r2 r3 r4 : List Nat) (ts : List Ty)
    (fi : List Int) (ex : List Export) (co : List (StackType × List Instr))
    (h0 : check_header bs = .ok r0)
    (h1 : parse_type_section r0 = .ok (ts, r1))
    (h2 : parse_func_section r1 = .ok (fi, r2))
    (h3 : parse_export_section r2 = .ok (ex, r3))
    (h4 : parse_code_section r3 = .ok (co, r4)) :
    (fi.length ≤ co.length →
      ∃ fs, parse_binary bs = .ok { types := ts, exports := ex, funcs := fs }) ∧
    (co.length < fi.length → parse_binary bs = .abort) := by
  constructor
  · intro hle
    obtain ⟨fs, hfs⟩ :=
      Option.isSome_iff_exists.mp (joinGo_isSome fi 0 co (by simpa using hle))
    refine ⟨fs, ?_⟩
    simp only [parse_binary, h0, h1, h2, h3, h4, join_code_func, hfs]
  · intro hlt
    have hne : fi ≠ [] := by
      rintro rfl
      simp at hlt
    have hnone := joinGo_none fi 0 co hne (by simpa using hlt)
    simp only [parse_binary, h0, h1, h2, h3, h4, join_code_func, hnone]

/-- C3 witness: the totality characterization applied to the concrete
mismatched buffer (one declared function, zero bodies), yielding the panic
outcome. -/
theorem claim_C3_witness :
    parse_binary [0x00, 0x61, 0x73, 0x6d, 0x01, 0x00, 0x00, 0x00,
      0x01, 0x01, 0x00, 0x03, 0x02, 0x01, 0x00, 0x07, 0x01, 0x00,
      0x0a, 0x01, 0x00] = .abort :=
  (claim_C3_totality
    [0x00, 0x61, 0x73, 0x6d, 0x01, 0x00, 0x00, 0x00, 0x01, 0x01, 0x00,
      0x03, 0x02, 0x01, 0x00, 0x07, 0x01, 0x00, 0x0a, 0x01, 0x00]
    [0x01, 0x01, 0x00, 0x03, 0x02, 0x01, 0x00, 0x07, 0x01, 0x00, 0x0a, 0x01, 0x00]
    [0x03, 0x02, 0x01, 0x00, 0x07, 0x01, 0x00, 0x0a, 0x01, 0x00]
    [0x07, 0x01, 0x00, 0x0a, 0x01, 0x00]
    [0x0a, 0x01, 0x00] [] [] [0] [] []
    rfl rfl rfl rfl rfl).2 (by decide)

/-- C5: header validation — any buffer shorter than 8 bytes fails with
`ModuleToShort`; any buffer of at least 8 bytes whose first four bytes are
not `\0asm` fails with `WrongMagicHeader`; correct magic with a 4-byte
version field other than 1 fails with `WrongVersionHeader`; correct magic
and version 1 pass the header check. -/
theorem claim_C5_header :
    (∀ bs : List Nat, bs.length < 8 → check_header bs = .error .ModuleToShort) ∧
    (∀ bs : List Nat, 8 ≤ bs.length → bs.take 4 ≠ [0x00, 0x61, 0x73, 0x6d] →
      check_header bs = .error .WrongMagicHeader) ∧
    (∀ (v4 v5 v6 v7 : Nat) (r : List Nat),
      v4 + 256 * v5 + 65536 * v6 + 16777216 * v7 ≠ 1 →
      check_header ([0x00, 0x61, 0x73, 0x6d, v4, v5, v6, v7] ++ r) =
        .error .WrongVersionHeader) ∧
    (∀ r : List Nat,
      check_header ([0x00, 0x61, 0x73, 0x6d, 0x01, 0x00, 0x00, 0x00] ++ r) = .ok r) := by
  refine ⟨?_, ?_, ?_, check_header_ok⟩
  · intro bs h
    rw [check_header, if_pos h]
  · intro bs h8 hm
    have hlt : ¬ bs.length < 8 := by omega
    have h4 : 4 ≤ bs.length := by omega
    rw [check_header, if_neg hlt, readBytes, if_pos h4]
    simp [hm]
  · intro v4 v5 v6 v7 r hv
    simp [check_header, readBytes, readDword, hv]

/-- C5 witness: the header checks at concrete buffers — too short, bad magic,
version 2, and a valid header. -/
theorem claim_C5_witness :
    check_header [0x00, 0x61, 0x73] = .error .ModuleToShort ∧
    check_header [0x10, 0x61, 0x73, 0x6d, 0x01, 0x00, 0x00, 0x00] =
      .error .WrongMagicHeader ∧
    check_header [0x00, 0x61, 0x73, 0x6d, 0x02, 0x00, 0x00, 0x00] =
      .error .WrongVersionHeader ∧
    check_header [0x00, 0x61, 0x73, 0x6d, 0x01, 0x00, 0x00, 0x00, 0x42] = .ok [0x42] := by
  refine ⟨claim_C5_header.1 _ (by decide), claim_C5_header.2.1 _ (by decide) (by decide), ?_, ?_⟩
  · exact claim_C5_header.2.2.1 0x02 0x00 0x00 0x00 [] (by decide)
  · exact claim_C5_header.2.2.2 [0x42]

/-- C7: value-type decoding is the fixed mapping `0x7f ↦ I32`, `0x7e ↦ I64`,
and any other byte in a value-type position fails with `InvalidValueType` —
for `parse_valuetype` itself, for a parameter position and a result position
in the Type section, and for a declared local's position in the Code
section. -/
theorem claim_C7_valuetype :
    (∀ r : List Nat, parse_valuetype (0x7f :: r) = .ok (.I32, r)) ∧
    (∀ r : List Nat, parse_valuetype (0x7e :: r) = .ok (.I64, r)) ∧
    (∀ (b : Nat) (r : List Nat), b ≠ 0x7f → b ≠ 0x7e →
      parse_valuetype (b :: r) = .error .InvalidValueType) ∧
    (∀ (b : Nat) (r : List Nat), b ≠ 0x7f → b ≠ 0x7e →
      parse_type_section (0x01 :: 0x00 :: 0x01 :: 0x60 :: 0x01 :: b :: r) =
        .error .InvalidValueType) ∧
    (∀ (b : Nat) (r : List Nat), b ≠ 0x7f → b ≠ 0x7e →
      parse_type_section (0x01 :: 0x00 :: 0x01 :: 0x60 :: 0x00 :: 0x01 :: b :: r) =
        .error .InvalidValueType) ∧
    (∀ (b : Nat) (r : List Nat), b ≠ 0x7f → b ≠ 0x7e →
      parse_code_section (0x0a :: 0x00 :: 0x01 :: 0x00 :: 0x01 :: b :: r) =
        .error .InvalidValueType) := by
  refine ⟨fun r => rfl, fun r => rfl, ?_, ?_, ?_, ?_⟩
  · intro b r h1 h2
    simp [parse_valuetype, readByte, h1, h2]
  · intro b r h1 h2
    simp [parse_type_section, SectionId.TYPE, readByte, parse_sigs, parse_sig,
      parse_valuetypes, parse_valuetype, h1, h2]
  · intro b r h1 h2
    simp [parse_type_section, SectionId.TYPE, readByte, parse_sigs, parse_sig,
      parse_valuetypes, parse_valuetype, h1, h2]
  · intro b r h1 h2
    simp [parse_code_section, SectionId.CODE, readByte, parse_bodies, parse_body,
      parse_local_types, h1, h2]

/-- C7 witness: the value-type mapping and the `InvalidValueType` failures at
the concrete byte `0x55` in each position. -/
theorem claim_C7_witness :
    parse_valuetype [0x7f] = .ok (.I32, []) ∧
    parse_valuetype [0x55] = .error .InvalidValueType ∧
    parse_type_section [0x01, 0x00, 0x01, 0x60, 0x01, 0x55] = .error .InvalidValueType ∧
    parse_type_section [0x01, 0x00, 0x01, 0x60, 0x00, 0x01, 0x55] =
      .error .InvalidValueType ∧
    parse_code_section [0x0a, 0x00, 0x01, 0x00, 0x01, 0x55] = .error .InvalidValueType :=
  ⟨claim_C7_valuetype.1 [],
   claim_C7_valuetype.2.2.1 0x55 [] (by decide) (by decide),
   claim_C7_valuetype.2.2.2.1 0x55 [] (by decide) (by decide),
   claim_C7_valuetype.2.2.2.2.1 0x55 [] (by decide) (by decide),
   claim_C7_valuetype.2.2.2.2.2 0x55 [] (by decide) (by decide)⟩

/-- C8: instruction-stream decoding — tag `0x20` followed by an index byte
`i` prepends `LocalGet i` to whatever the rest of the stream decodes to, tag
`0x6a` prepends `I32Add`, tag `0x0b` terminates the body with the remaining
bytes untouched, and any other tag byte fails with `InvalidInstruction`.
The loop is driven by the terminator, not a count. -/
theorem claim_C8_instructions :
    (∀ (i : Nat) (r : List Nat), parse_instrs (0x20 :: i :: r) =
      match parse_instrs r with
      | .error e => .error e
      | .ok (instrs, rest) => .ok (.LocalGet i :: instrs, rest)) ∧
    (∀ r : List Nat, parse_instrs (0x6a :: r) =
      match parse_instrs r with
      | .error e => .error e
      | .ok (instrs, rest) => .ok (.I32Add :: instrs, rest)) ∧
    (∀ r : List Nat, parse_instrs (0x0b :: r) = .ok ([], r)) ∧
    (∀ (b : Nat) (r : List Nat), b ≠ 0x20 → b ≠ 0x6a → b ≠ 0x0b →
      parse_instrs (b :: r) = .error .InvalidInstruction) := by
  refine ⟨parse_instrs_localget, parse_instrs_i32add, parse_instrs_endmark, ?_⟩
  intro b r h1 h2 h3
  rw [parse_instrs.eq_def]
  simp [h1, h2, h3]

/-- C8 witness: the instruction decoder at a concrete body and a concrete
unknown tag byte `0x99`. -/
theorem claim_C8_witness :
    parse_instrs [0x20, 0x05, 0x0b] = .ok ([.LocalGet 5], []) ∧
    parse_instrs [0x99] = .error .InvalidInstruction := by
  constructor
  · rw [claim_C8_instructions.1 5 [0x0b]]
    rfl
  · exact claim_C8_instructions.2.2.2 0x99 [] (by decide) (by decide) (by decide)

/-- Every export the export loop produces carries the constant descriptor
`FuncExport 0`. -/
lemma parse_one_export_desc (bs : List Nat) (ex : Export) (r : List Nat)
    (h : parse_one_export bs = .ok (ex, r)) : ex.e_desc = .FuncExport 0 := by
  unfold parse_one_export at h
  repeat' split at h
  all_goals
    first
    | (simp only [Except.ok.injEq, Prod.mk.injEq] at h
       rw [← h.1])
    | simp at h

/-- The export loop only produces exports with descriptor `FuncExport 0`. -/
lemma parse_exports_desc :
    ∀ (n : Nat) (bs : List Nat) (es : List Export) (r : List Nat),
      parse_exports n bs = .ok (es, r) → ∀ e ∈ es, e.e_desc = .FuncExport 0 := by
  intro n
  induction n with
  | zero =>
    intro bs es r h e he
    simp only [parse_exports, Except.ok.injEq, Prod.mk.injEq] at h
    rw [← h.1] at he
    simp at he
  | succ n ih =>
    intro bs es r h e he
    unfold parse_exports at h
    split at h
    · simp at h
    · rename_i ex1 r1 hpe
      split at h
      · simp at h
      · rename_i exs r2 hrec
        simp only [Except.ok.injEq, Prod.mk.injEq] at h
        rw [← h.1] at he
        rcases List.mem_cons.mp he with rfl | hmem
        · exact parse_one_export_desc bs e r1 hpe
        · exact ih r1 exs r2 hrec e hmem

/-- C9: whenever the export-section parser succeeds, every decoded export's
descriptor is a function export with index exactly 0 — the index is the
literal constant in the parser, never read from the input. -/
theorem claim_C9_export_index_constant (bs : List Nat) (es : List Export) (r : List Nat)
    (h : parse_export_section bs = .ok (es, r)) :
    ∀ e ∈ es, e.e_desc = .FuncExport 0 := by
  unfold parse_export_section at h
  repeat' split at h
  all_goals
    first
    | exact parse_exports_desc _ _ _ _ h
    | simp at h

/-- C9 witness: the constant descriptor on the concrete "add" export section,
whose final input byte is `0x00`. -/
theorem claim_C9_witness :
    ({ name := [0x61, 0x64, 0x64], e_desc := .FuncExport 0 } : Export).e_desc =
      .FuncExport 0 :=
  claim_C9_export_index_constant
    [0x07, 0x07, 0x01, 0x03, 0x61, 0x64, 0x64, 0x00, 0x00]
    [{ name := [0x61, 0x64, 0x64], e_desc := .FuncExport 0 }] [] rfl _ (by simp)

/-- C6: section order enforcement — at each of the four section positions
(after the header, after the Type section, after the Function section, after
the Export section), a tag byte other than the one expected at that position
(`0x01`, `0x03`, `0x07`, `0x0a` respectively) makes `parse_binary` fail with
`InvalidSectionCode`; in particular, swapping the Function and Export
sections of the repository's own valid test binary fails that way. -/
theorem claim_C6_section_order :
    (∀ (t : Nat) (r0 : List Nat) (bs : List Nat),
      check_header bs = .ok (t :: r0) → t ≠ 0x01 →
      parse_binary bs = .err .InvalidSectionCode) ∧
    (∀ (bs r0 : List Nat) (ts : List Ty) (t : Nat) (r1 : List Nat),
      check_header bs = .ok r0 → parse_type_section r0 = .ok (ts, t :: r1) →
      t ≠ 0x03 → parse_binary bs = .err .InvalidSectionCode) ∧
    (∀ (bs r0 : List Nat) (ts : List Ty) (r1 : List Nat) (fi : List Int)
        (t : Nat) (r2 : List Nat),
      check_header bs = .ok r0 → parse_type_section r0 = .ok (ts, r1) →
      parse_func_section r1 = .ok (fi, t :: r2) →
      t ≠ 0x07 → parse_binary bs = .err .InvalidSectionCode) ∧
    (∀ (bs r0 : List Nat) (ts : List Ty) (r1 : List Nat) (fi : List Int)
        (r2 : List Nat) (ex : List Export) (t : Nat) (r3 : List Nat),
      check_header bs = .ok r0 → parse_type_section r0 = .ok (ts, r1) →
      parse_func_section r1 = .ok (fi, r2) → parse_export_section r2 = .ok (ex, t :: r3) →
      t ≠ 0x0a → parse_binary bs = .err .InvalidSectionCode) ∧
    parse_binary [0x00, 0x61, 0x73, 0x6d, 0x01, 0x00, 0x00, 0x00,
      0x01, 0x07, 0x01, 0x60, 0x02, 0x7f, 0x7f, 0x01, 0x7f,
      0x07, 0x07, 0x01, 0x03, 0x61, 0x64, 0x64, 0x00, 0x00,
      0x03, 0x02, 0x01, 0x00,
      0x0a, 0x09, 0x01, 0x07, 0x00, 0x20, 0x00, 0x20, 0x01, 0x6a, 0x0b] =
      .err .InvalidSectionCode := by
  refine ⟨?_, ?_, ?_, ?_, rfl⟩
  · intro t r0 bs h0 ht
    simp only [parse_binary, h0]
    simp [parse_type_section, readByte, SectionId.TYPE, ht]
  · intro bs r0 ts t r1 h0 h1 ht
    simp only [parse_binary, h0, h1]
    simp [parse_func_section, readByte, SectionId.FUNC, ht]
  · intro bs r0 ts r1 fi t r2 h0 h1 h2 ht
    simp only [parse_binary, h0, h1, h2]
    simp [parse_export_section, readByte, SectionId.EXPORT, ht]
  · intro bs r0 ts r1 fi r2 ex t r3 h0 h1 h2 h3 ht
    simp only [parse_binary, h0, h1, h2, h3]
    simp [parse_code_section, readByte, SectionId.CODE, ht]

/-- C6 witness: the order checks at concrete buffers — a Function tag where
the Type tag is expected, and a stray byte `0x09` where the Function tag is
expected. -/
theorem claim_C6_witness :
    parse_binary [0x00, 0x61, 0x73, 0x6d, 0x01, 0x00, 0x00, 0x00, 0x03] =
      .err .InvalidSectionCode ∧
    parse_binary [0x00, 0x61, 0x73, 0x6d, 0x01, 0x00, 0x00, 0x00, 0x01, 0x01, 0x00, 0x09] =
      .err .InvalidSectionCode :=
  ⟨claim_C6_section_order.1 0x03 []
      [0x00, 0x61, 0x73, 0x6d, 0x01, 0x00, 0x00, 0x00, 0x03] rfl (by decide),
   claim_C6_section_order.2.1
      [0x00, 0x61, 0x73, 0x6d, 0x01, 0x00, 0x00, 0x00, 0x01, 0x01, 0x00, 0x09]
      [0x01, 0x01, 0x00, 0x09] [] 0x09 [] rfl rfl (by decide)⟩

/-! ## Prefix determinism

A successful parse consumed a definite prefix of its input: the result is
`ok (v, rest)` exactly when the input splits as that prefix followed by
`rest`, and replacing `rest` by any other suffix reproduces the same value.
These lemmas let a byte inside one section be changed without disturbing the
parses of the sections around it. -/

/-- A parser whose successes are determined by the consumed prefix. -/
def PrefixDet {α : Type} (p : List Nat → Except RuntimeError (α × List Nat)) : Prop :=
  ∀ bs v rest, p bs = .ok (v, rest) →
    ∃ pre, bs = pre ++ rest ∧ ∀ rest', p (pre ++ rest') = .ok (v, rest')

lemma readByte_pd : PrefixDet readByte := by
  intro bs v rest h
  cases bs with
  | nil => simp [readByte] at h
  | cons b r =>
    simp only [readByte, Except.ok.injEq, Prod.mk.injEq] at h
    obtain ⟨rfl, rfl⟩ := h
    exact ⟨[b], rfl, fun rest' => rfl⟩

lemma readBytes_pd (n : Nat) : PrefixDet (fun bs => readBytes bs n) := by
  intro bs v rest h
  simp only [readBytes] at h
  split at h
  · rename_i hle
    simp only [Except.ok.injEq, Prod.mk.injEq] at h
    obtain ⟨rfl, rfl⟩ := h
    have hlen : (bs.take n).length = n := by
      rw [List.length_take]
      omega
    refine ⟨bs.take n, (List.take_append_drop n bs).symm, fun rest' => ?_⟩
    show readBytes (bs.take n ++ rest') n = .ok (bs.take n, rest')
    rw [readBytes, if_pos (by simp [hlen]), List.take_left' hlen, List.drop_left' hlen]
  · simp at h

lemma parse_valuetype_pd : PrefixDet parse_valuetype := by
  intro bs v rest h
  unfold parse_valuetype at h
  split at h
  · simp at h
  · rename_i b r hb
    obtain ⟨pre, rfl, hpre⟩ := readByte_pd _ _ _ hb
    split at h
    · rename_i hb1
      simp only [Except.ok.injEq, Prod.mk.injEq] at h
      obtain ⟨rfl, rfl⟩ := h
      refine ⟨pre, rfl, fun rest' => ?_⟩
      simp [parse_valuetype, hpre rest', hb1]
    · rename_i hb1
      split at h
      · rename_i hb2
        simp only [Except.ok.injEq, Prod.mk.injEq] at h
        obtain ⟨rfl, rfl⟩ := h
        refine ⟨pre, rfl, fun rest' => ?_⟩
        simp [parse_valuetype, hpre rest', hb1, hb2]
      · simp at h

lemma parse_valuetypes_pd (n : Nat) : PrefixDet (parse_valuetypes n) := by
  induction n with
  | zero =>
    intro bs v rest h
    simp only [parse_valuetypes, Except.ok.injEq, Prod.mk.injEq] at h
    obtain ⟨rfl, rfl⟩ := h
    exact ⟨[], rfl, fun rest' => rfl⟩
  | succ n ih =>
    intro bs v rest h
    unfold parse_valuetypes at h
    split at h
    · simp at h
    · rename_i v1 r1 hv1
      split at h
      · simp at h
      · rename_i vs r2 hvs
        simp only [Except.ok.injEq, Prod.mk.injEq] at h
        obtain ⟨rfl, rfl⟩ := h
        obtain ⟨p1, rfl, hp1⟩ := parse_valuetype_pd _ _ _ hv1
        obtain ⟨p2, rfl, hp2⟩ := ih _ _ _ hvs
        refine ⟨p1 ++ p2, by simp, fun rest' => ?_⟩
        rw [List.append_assoc]
        simp only [parse_valuetypes, hp1 (p2 ++ rest'), hp2 rest']

lemma parse_sig_pd : PrefixDet parse_sig := by
  intro bs v rest h
  unfold parse_sig at h
  split at h
  · simp at h
  · rename_i fb r1 h1
    split at h
    · simp at h
    · rename_i np r2 h2
      split at h
      · simp at h
      · rename_i ps r3 h3
        split at h
        · simp at h
        · rename_i nr r4 h4
          split at h
          · simp at h
          · rename_i rs r5 h5
            simp only [Except.ok.injEq, Prod.mk.injEq] at h
            obtain ⟨rfl, rfl⟩ := h
            obtain ⟨p1, rfl, hp1⟩ := readByte_pd _ _ _ h1
            obtain ⟨p2, rfl, hp2⟩ := readByte_pd _ _ _ h2
            obtain ⟨p3, rfl, hp3⟩ := parse_valuetypes_pd _ _ _ _ h3
            obtain ⟨p4, rfl, hp4⟩ := readByte_pd _ _ _ h4
            obtain ⟨p5, rfl, hp5⟩ := parse_valuetypes_pd _ _ _ _ h5
            refine ⟨p1 ++ (p2 ++ (p3 ++ (p4 ++ p5))), by simp, fun rest' => ?_⟩
            simp only [parse_sig, List.append_assoc, hp1, hp2, hp3, hp4, hp5]

lemma parse_sigs_pd (n : Nat) : PrefixDet (parse_sigs n) := by
  induction n with
  | zero =>
    intro bs v rest h
    simp only [parse_sigs, Except.ok.injEq, Prod.mk.injEq] at h
    obtain ⟨rfl, rfl⟩ := h
    exact ⟨[], rfl, fun rest' => rfl⟩
  | succ n ih =>
    intro bs v rest h
    unfold parse_sigs at h
    split at h
    · simp at h
    · rename_i t r1 h1
      split at h
      · simp at h
      · rename_i ts r2 h2
        simp only [Except.ok.injEq, Prod.mk.injEq] at h
        obtain ⟨rfl, rfl⟩ := h
        obtain ⟨p1, rfl, hp1⟩ := parse_sig_pd _ _ _ h1
        obtain ⟨p2, rfl, hp2⟩ := ih _ _ _ h2
        refine ⟨p1 ++ p2, by simp, fun rest' => ?_⟩
        rw [List.append_assoc]
        simp only [parse_sigs, hp1 (p2 ++ rest'), hp2 rest']

lemma parse_type_section_pd : PrefixDet parse_type_section := by
  intro bs v rest h
  unfold parse_type_section at h
  split at h
  · simp at h
  · rename_i tag r1 h1
    split at h
    · simp at h
    · rename_i hne
      split at h
      · simp at h
      · rename_i sz r2 h2
        split at h
        · simp at h
        · rename_i num r3 h3
          obtain ⟨p1, rfl, hp1⟩ := readByte_pd _ _ _ h1
          obtain ⟨p2, rfl, hp2⟩ := readByte_pd _ _ _ h2
          obtain ⟨p3, rfl, hp3⟩ := readByte_pd _ _ _ h3
          obtain ⟨p4, rfl, hp4⟩ := parse_sigs_pd _ _ _ _ h
          refine ⟨p1 ++ (p2 ++ (p3 ++ p4)), by simp, fun rest' => ?_⟩
          simp [parse_type_section, List.append_assoc, hp1, hp2, hp3, hp4, hne]

lemma parse_func_indices_pd (n : Nat) : PrefixDet (parse_func_indices n) := by
  induction n with
  | zero =>
    intro bs v rest h
    simp only [parse_func_indices, Except.ok.injEq, Prod.mk.injEq] at h
    obtain ⟨rfl, rfl⟩ := h
    exact ⟨[], rfl, fun rest' => rfl⟩
  | succ n ih =>
    intro bs v rest h
    unfold parse_func_indices at h
    split at h
    · simp at h
    · rename_i b r1 h1
      split at h
      · simp at h
      · rename_i is r2 h2
        simp only [Except.ok.injEq, Prod.mk.injEq] at h
        obtain ⟨rfl, rfl⟩ := h
        obtain ⟨p1, rfl, hp1⟩ := readByte_pd _ _ _ h1
        obtain ⟨p2, rfl, hp2⟩ := ih _ _ _ h2
        refine ⟨p1 ++ p2, by simp, fun rest' => ?_⟩
        rw [List.append_assoc]
        simp only [parse_func_indices, hp1 (p2 ++ rest'), hp2 rest']

lemma parse_func_section_pd : PrefixDet parse_func_section := by
  intro bs v rest h
  unfold parse_func_section at h
  split at h
  · simp at h
  · rename_i tag r1 h1
    split at h
    · simp at h
    · rename_i hne
      split at h
      · simp at h
      · rename_i sz r2 h2
        split at h
        · simp at h
        · rename_i num r3 h3
          obtain ⟨p1, rfl, hp1⟩ := readByte_pd _ _ _ h1
          obtain ⟨p2, rfl, hp2⟩ := readByte_pd _ _ _ h2
          obtain ⟨p3, rfl, hp3⟩ := readByte_pd _ _ _ h3
          obtain ⟨p4, rfl, hp4⟩ := parse_func_indices_pd _ _ _ _ h
          refine ⟨p1 ++ (p2 ++ (p3 ++ p4)), by simp, fun rest' => ?_⟩
          simp [parse_func_section, List.append_assoc, hp1, hp2, hp3, hp4, hne]

lemma parse_one_export_pd : PrefixDet parse_one_export := by
  intro bs v rest h
  unfold parse_one_export at h
  split at h
  · simp at h
  · rename_i len r1 h1
    split at h
    · simp at h
    · rename_i nm r2 h2
      split at h
      · rename_i hu
        split at h
        · simp at h
        · rename_i zb r3 h3
          split at h
          · simp at h
          · rename_i kd r4 h4
            split at h
            · rename_i hk
              simp only [Except.ok.injEq, Prod.mk.injEq] at h
              obtain ⟨rfl, rfl⟩ := h
              obtain ⟨p1, rfl, hp1⟩ := readByte_pd _ _ _ h1
              obtain ⟨p2, rfl, hp2⟩ := readBytes_pd _ _ _ _ h2
              obtain ⟨p3, rfl, hp3⟩ := readByte_pd _ _ _ h3
              obtain ⟨p4, rfl, hp4⟩ := readByte_pd _ _ _ h4
              refine ⟨p1 ++ (p2 ++ (p3 ++ p4)), by simp, fun rest' => ?_⟩
              have hp2' := fun t => hp2 t
              simp only [parse_one_export, List.append_assoc, hp1, hp2', hp3, hp4, hu,
                if_true, hk, if_pos]
            · simp at h
      · simp at h

lemma parse_exports_pd (n : Nat) : PrefixDet (parse_exports n) := by
  induction n with
  | zero =>
    intro bs v rest h
    simp only [parse_exports, Except.ok.injEq, Prod.mk.injEq] at h
    obtain ⟨rfl, rfl⟩ := h
    exact ⟨[], rfl, fun rest' => rfl⟩
  | succ n ih =>
    intro bs v rest h
    unfold parse_exports at h
    split at h
    · simp at h
    · rename_i ex1 r1 h1
      split at h
      · simp at h
      · rename_i exs r2 h2
        simp only [Except.ok.injEq, Prod.mk.injEq] at h
        obtain ⟨rfl, rfl⟩ := h
        obtain ⟨p1, rfl, hp1⟩ := parse_one_export_pd _ _ _ h1
        obtain ⟨p2, rfl, hp2⟩ := ih _ _ _ h2
        refine ⟨p1 ++ p2, by simp, fun rest' => ?_⟩
        rw [List.append_assoc]
        simp only [parse_exports, hp1 (p2 ++ rest'), hp2 rest']

lemma parse_export_section_pd : PrefixDet parse_export_section := by
  intro bs v rest h
  unfold parse_export_section at h
  split at h
  · simp at h
  · rename_i tag r1 h1
    split at h
    · simp at h
    · rename_i hne
      split at h
      · simp at h
      · rename_i sz r2 h2
        split at h
        · simp at h
        · rename_i num r3 h3
          obtain ⟨p1, rfl, hp1⟩ := readByte_pd _ _ _ h1
          obtain ⟨p2, rfl, hp2⟩ := readByte_pd _ _ _ h2
          obtain ⟨p3, rfl, hp3⟩ := readByte_pd _ _ _ h3
          obtain ⟨p4, rfl, hp4⟩ := parse_exports_pd _ _ _ _ h
          refine ⟨p1 ++ (p2 ++ (p3 ++ p4)), by simp, fun rest' => ?_⟩
          simp [parse_export_section, List.append_assoc, hp1, hp2, hp3, hp4, hne]

lemma parse_local_types_pd (n : Nat) : PrefixDet (parse_local_types n) := by
  induction n with
  | zero =>
    intro bs v rest h
    simp only [parse_local_types, Except.ok.injEq, Prod.mk.injEq] at h
    obtain ⟨rfl, rfl⟩ := h
    exact ⟨[], rfl, fun rest' => rfl⟩
  | succ n ih =>
    intro bs v rest h
    unfold parse_local_types at h
    split at h
    · simp at h
    · rename_i b r1 h1
      split at h
      · simp at h
      · rename_i vt hvt
        split at h
        · simp at h
        · rename_i vts r2 h2
          simp only [Except.ok.injEq, Prod.mk.injEq] at h
          obtain ⟨rfl, rfl⟩ := h
          obtain ⟨p1, rfl, hp1⟩ := readByte_pd _ _ _ h1
          obtain ⟨p2, rfl, hp2⟩ := ih _ _ _ h2
          refine ⟨p1 ++ p2, by simp, fun rest' => ?_⟩
          rw [List.append_assoc]
          simp only [parse_local_types, hp1 (p2 ++ rest'), hvt, hp2 rest']

lemma parse_instrs_pd : PrefixDet parse_instrs := by
  suffices hfuel : ∀ (n : Nat) (bs : List Nat), bs.length ≤ n →
      ∀ v rest, parse_instrs bs = .ok (v, rest) →
        ∃ pre, bs = pre ++ rest ∧ ∀ rest', parse_instrs (pre ++ rest') = .ok (v, rest') by
    intro bs v rest hh
    exact hfuel bs.length bs le_rfl v rest hh
  intro n
  induction n with
  | zero =>
    intro bs hlen v rest h
    have hnil : bs = [] := List.length_eq_zero.mp (Nat.le_zero.mp hlen)
    subst hnil
    simp [parse_instrs] at h
  | succ n ih =>
    intro bs hlen v rest h
    cases bs with
    | nil => simp [parse_instrs] at h
    | cons b r =>
      by_cases hb1 : b = 0x20
      · subst hb1
        cases r with
        | nil =>
          rw [parse_instrs.eq_def] at h
          simp at h
        | cons i r' =>
          rw [parse_instrs_localget] at h
          split at h
          · simp at h
          · rename_i is1 rest1 hrec
            simp only [Except.ok.injEq, Prod.mk.injEq] at h
            obtain ⟨rfl, rfl⟩ := h
            obtain ⟨pre, rfl, hpre⟩ := ih r' (by simp at hlen; omega) _ _ hrec
            refine ⟨0x20 :: i :: pre, rfl, fun rest' => ?_⟩
            rw [List.cons_append, List.cons_append, parse_instrs_localget, hpre rest']
      · by_cases hb2 : b = 0x6a
        · subst hb2
          rw [parse_instrs_i32add] at h
          split at h
          · simp at h
          · rename_i is1 rest1 hrec
            simp only [Except.ok.injEq, Prod.mk.injEq] at h
            obtain ⟨rfl, rfl⟩ := h
            obtain ⟨pre, rfl, hpre⟩ := ih r (by simp at hlen; omega) _ _ hrec
            refine ⟨0x6a :: pre, rfl, fun rest' => ?_⟩
            rw [List.cons_append, parse_instrs_i32add, hpre rest']
        · by_cases hb3 : b = 0x0b
          · subst hb3
            rw [parse_instrs_endmark] at h
            simp only [Except.ok.injEq, Prod.mk.injEq] at h
            obtain ⟨rfl, rfl⟩ := h
            exact ⟨[0x0b], rfl, fun rest' => parse_instrs_endmark rest'⟩
          · rw [parse_instrs.eq_def] at h
            simp [hb1, hb2, hb3] at h

lemma parse_body_pd : PrefixDet parse_body := by
  intro bs v rest h
  unfold parse_body at h
  split at h
  · simp at h
  · rename_i sz r1 h1
    split at h
    · simp at h
    · rename_i nl r2 h2
      split at h
      · simp at h
      · rename_i lcs r3 h3
        split at h
        · simp at h
        · rename_i ins r4 h4
          simp only [Except.ok.injEq, Prod.mk.injEq] at h
          obtain ⟨rfl, rfl⟩ := h
          obtain ⟨p1, rfl, hp1⟩ := readByte_pd _ _ _ h1
          obtain ⟨p2, rfl, hp2⟩ := readByte_pd _ _ _ h2
          obtain ⟨p3, rfl, hp3⟩ := parse_local_types_pd _ _ _ _ h3
          obtain ⟨p4, rfl, hp4⟩ := parse_instrs_pd _ _ _ h4
          refine ⟨p1 ++ (p2 ++ (p3 ++ p4)), by simp, fun rest' => ?_⟩
          simp only [parse_body, List.append_assoc, hp1, hp2, hp3, hp4]

lemma parse_bodies_pd (n : Nat) : PrefixDet (parse_bodies n) := by
  induction n with
  | zero =>
    intro bs v rest h
    simp only [parse_bodies, Except.ok.injEq, Prod.mk.injEq] at h
    obtain ⟨rfl, rfl⟩ := h
    exact ⟨[], rfl, fun rest' => rfl⟩
  | succ n ih =>
    intro bs v rest h
    unfold parse_bodies at h
    split at h
    · simp at h
    · rename_i c1 r1 h1
      split at h
      · simp at h
      · rename_i cs r2 h2
        simp only [Except.ok.injEq, Prod.mk.injEq] at h
        obtain ⟨rfl, rfl⟩ := h
        obtain ⟨p1, rfl, hp1⟩ := parse_body_pd _ _ _ h1
        obtain ⟨p2, rfl, hp2⟩ := ih _ _ _ h2
        refine ⟨p1 ++ p2, by simp, fun rest' => ?_⟩
        rw [List.append_assoc]
        simp only [parse_bodies, hp1 (p2 ++ rest'), hp2 rest']

/-- An 8-byte header prefix either passes the header check for every suffix,
or fails with one fixed error for every suffix. -/
lemma check_header_split (h8 : List Nat) (hl : h8.length = 8) :
    (∀ T, check_header (h8 ++ T) = .ok T) ∨
    (∃ e, ∀ T, check_header (h8 ++ T) = .error e) := by
  rcases h8 with _ | ⟨b0, _ | ⟨b1, _ | ⟨b2, _ | ⟨b3, _ | ⟨b4, _ | ⟨b5, _ | ⟨b6, _ | ⟨b7, t⟩⟩⟩⟩⟩⟩⟩⟩ <;>
    simp at hl
  subst hl
  have hlen : ∀ T : List Nat,
      ¬ (([b0, b1, b2, b3, b4, b5, b6, b7] ++ T).length < 8) := by
    intro T
    simp
  by_cases hm : ([b0, b1, b2, b3] : List Nat) = [0x00, 0x61, 0x73, 0x6d]
  · by_cases hv : b4 + 256 * b5 + 65536 * b6 + 16777216 * b7 = 1
    · left
      intro T
      simp [check_header, readBytes, readDword, hlen T, hm, hv]
    · right
      exact ⟨.WrongVersionHeader, fun T => by
        simp [check_header, readBytes, readDword, hlen T, hm, hv]⟩
  · right
    exact ⟨.WrongMagicHeader, fun T => by
      simp [check_header, readBytes, readDword, hlen T, hm]⟩

/-- The Type section's size byte is read and discarded: its value never
affects the parse. -/
lemma type_size_core (t x y : Nat) (r : List Nat) :
    parse_type_section (t :: x :: r) = parse_type_section (t :: y :: r) := by
  simp [parse_type_section, readByte]

/-- The Function section's size byte is read and discarded. -/
lemma func_size_core (t x y : Nat) (r : List Nat) :
    parse_func_section (t :: x :: r) = parse_func_section (t :: y :: r) := by
  simp [parse_func_section, readByte]

/-- The Export section's size byte is read and discarded. -/
lemma export_size_core (t x y : Nat) (r : List Nat) :
    parse_export_section (t :: x :: r) = parse_export_section (t :: y :: r) := by
  simp [parse_export_section, readByte]

/-- The Code section's size byte is read and discarded. -/
lemma code_size_core (t x y : Nat) (r : List Nat) :
    parse_code_section (t :: x :: r) = parse_code_section (t :: y :: r) := by
  simp [parse_code_section, readByte]

/-- A signature's func-kind marker byte is read and discarded. -/
lemma sig_marker_core (x y : Nat) (r : List Nat) :
    parse_sig (x :: r) = parse_sig (y :: r) := by
  simp [parse_sig, readByte]

/-- A code entry's body-size byte is read and discarded. -/
lemma body_size_core (x y : Nat) (r : List Nat) :
    parse_body (x :: r) = parse_body (y :: r) := by
  simp [parse_body, readByte]

/-- An export entry's reserved byte (after the name) is read and discarded. -/
lemma export_zero_core (L : Nat) (name : List Nat) (z z' : Nat) (r : List Nat)
    (hL : name.length = L) :
    parse_one_export (L :: (name ++ (z :: r))) =
      parse_one_export (L :: (name ++ (z' :: r))) := by
  subst hL
  simp [parse_one_export, readByte, readBytes_exact]

/-- Splitting the signature loop. -/
lemma parse_sigs_split (a b : Nat) :
    ∀ bs, parse_sigs (a + b) bs =
      match parse_sigs a bs with
      | .error e => .error e
      | .ok (xs, r) =>
        match parse_sigs b r with
        | .error e => .error e
        | .ok (ys, r') => .ok (xs ++ ys, r') := by
  induction a with
  | zero =>
    intro bs
    rw [Nat.zero_add]
    cases h : parse_sigs b bs with
    | error e => simp [parse_sigs, h]
    | ok pr => simp [parse_sigs, h]
  | succ a ih =>
    intro bs
    rw [show a + 1 + b = (a + b) + 1 by omega]
    cases h1 : parse_sig bs with
    | error e => simp [parse_sigs, h1]
    | ok pr =>
      obtain ⟨t, r⟩ := pr
      simp only [parse_sigs, h1, ih r]
      cases h2 : parse_sigs a r with
      | error e => simp [h2]
      | ok pr2 =>
        obtain ⟨ts, r2⟩ := pr2
        cases h3 : parse_sigs b r2 with
        | error e => simp [h2, h3]
        | ok pr3 => simp [h2, h3]

/-- Splitting the export loop. -/
lemma parse_exports_split (a b : Nat) :
    ∀ bs, parse_exports (a + b) bs =
      match parse_exports a bs with
      | .error e => .error e
      | .ok (xs, r) =>
        match parse_exports b r with
        | .error e => .error e
        | .ok (ys, r') => .ok (xs ++ ys, r') := by
  induction a with
  | zero =>
    intro bs
    rw [Nat.zero_add]
    cases h : parse_exports b bs with
    | error e => simp [parse_exports, h]
    | ok pr => simp [parse_exports, h]
  | succ a ih =>
    intro bs
    rw [show a + 1 + b = (a + b) + 1 by omega]
    cases h1 : parse_one_export bs with
    | error e => simp [parse_exports, h1]
    | ok pr =>
      obtain ⟨t, r⟩ := pr
      simp only [parse_exports, h1, ih r]
      cases h2 : parse_exports a r with
      | error e => simp [h2]
      | ok pr2 =>
        obtain ⟨ts, r2⟩ := pr2
        cases h3 : parse_exports b r2 with
        | error e => simp [h2, h3]
        | ok pr3 => simp [h2, h3]

/-- Splitting the body loop. -/
lemma parse_bodies_split (a b : Nat) :
    ∀ bs, parse_bodies (a + b) bs =
      match parse_bodies a bs with
      | .error e => .error e
      | .ok (xs, r) =>
        match parse_bodies b r with
        | .error e => .error e
        | .ok (ys, r') => .ok (xs ++ ys, r') := by
  induction a with
  | zero =>
    intro bs
    rw [Nat.zero_add]
    cases h : parse_bodies b bs with
    | error e => simp [parse_bodies, h]
    | ok pr => simp [parse_bodies, h]
  | succ a ih =>
    intro bs
    rw [show a + 1 + b = (a + b) + 1 by omega]
    cases h1 : parse_body bs with
    | error e => simp [parse_bodies, h1]
    | ok pr =>
      obtain ⟨t, r⟩ := pr
      simp only [parse_bodies, h1, ih r]
      cases h2 : parse_bodies a r with
      | error e => simp [h2]
      | ok pr2 =>
        obtain ⟨ts, r2⟩ := pr2
        cases h3 : parse_bodies b r2 with
        | error e => simp [h2, h3]
        | ok pr3 => simp [h2, h3]

/-- Changing the Type section's size byte never changes the parse. -/
lemma c10_type_size (h8 : List Nat) (hl : h8.length = 8) (t x y : Nat) (r : List Nat) :
    parse_binary (h8 ++ (t :: x :: r)) = parse_binary (h8 ++ (t :: y :: r)) := by
  rcases check_header_split h8 hl with hok | ⟨e, herr⟩
  · simp only [parse_binary, hok]
    rw [type_size_core t x y r]
  · simp only [parse_binary, herr]

/-- Changing the Function section's size byte never changes the parse. -/
lemma c10_func_size (h8 : List Nat) (hl : h8.length = 8) (tpre : List Nat) (ts : List Ty)
    (t x y : Nat) (r : List Nat)
    (hty : parse_type_section (tpre ++ (t :: x :: r)) = .ok (ts, t :: x :: r)) :
    parse_binary (h8 ++ (tpre ++ (t :: x :: r))) =
      parse_binary (h8 ++ (tpre ++ (t :: y :: r))) := by
  rcases check_header_split h8 hl with hok | ⟨e, herr⟩
  · obtain ⟨p, hpeq, hp⟩ := parse_type_section_pd _ _ _ hty
    obtain rfl : tpre = p := List.append_cancel_right hpeq
    simp only [parse_binary, hok, hp]
    rw [func_size_core t x y r]
  · simp only [parse_binary, herr]

/-- Changing the Export section's size byte never changes the parse. -/
lemma c10_export_size (h8 : List Nat) (hl : h8.length = 8) (tpre fpre : List Nat)
    (ts : List Ty) (fi : List Int) (t x y : Nat) (r : List Nat)
    (hty : parse_type_section (tpre ++ (fpre ++ (t :: x :: r))) =
      .ok (ts, fpre ++ (t :: x :: r)))
    (hfn : parse_func_section (fpre ++ (t :: x :: r)) = .ok (fi, t :: x :: r)) :
    parse_binary (h8 ++ (tpre ++ (fpre ++ (t :: x :: r)))) =
      parse_binary (h8 ++ (tpre ++ (fpre ++ (t :: y :: r)))) := by
  rcases check_header_split h8 hl with hok | ⟨e, herr⟩
  · obtain ⟨p1, hpeq1, hp1⟩ := parse_type_section_pd _ _ _ hty
    obtain rfl : tpre = p1 := List.append_cancel_right hpeq1
    obtain ⟨p2, hpeq2, hp2⟩ := parse_func_section_pd _ _ _ hfn
    obtain rfl : fpre = p2 := List.append_cancel_right hpeq2
    simp only [parse_binary, hok, hp1, hp2]
    rw [export_size_core t x y r]
  · simp only [parse_binary, herr]

/-- Changing the Code section's size byte never changes the parse. -/
lemma c10_code_size (h8 : List Nat) (hl : h8.length = 8) (tpre fpre epre : List Nat)
    (ts : List Ty) (fi : List Int) (es : List Export) (t x y : Nat) (r : List Nat)
    (hty : parse_type_section (tpre ++ (fpre ++ (epre ++ (t :: x :: r)))) =
      .ok (ts, fpre ++ (epre ++ (t :: x :: r))))
    (hfn : parse_func_section (fpre ++ (epre ++ (t :: x :: r))) =
      .ok (fi, epre ++ (t :: x :: r)))
    (hexp : parse_export_section (epre ++ (t :: x :: r)) = .ok (es, t :: x :: r)) :
    parse_binary (h8 ++ (tpre ++ (fpre ++ (epre ++ (t :: x :: r))))) =
      parse_binary (h8 ++ (tpre ++ (fpre ++ (epre ++ (t :: y :: r))))) := by
  rcases check_header_split h8 hl with hok | ⟨e, herr⟩
  · obtain ⟨p1, hpeq1, hp1⟩ := parse_type_section_pd _ _ _ hty
    obtain rfl : tpre = p1 := List.append_cancel_right hpeq1
    obtain ⟨p2, hpeq2, hp2⟩ := parse_func_section_pd _ _ _ hfn
    obtain rfl : fpre = p2 := List.append_cancel_right hpeq2
    obtain ⟨p3, hpeq3, hp3⟩ := parse_export_section_pd _ _ _ hexp
    obtain rfl : epre = p3 := List.append_cancel_right hpeq3
    simp only [parse_binary, hok, hp1, hp2, hp3]
    rw [code_size_core t x y r]
  · simp only [parse_binary, herr]

/-- Changing any signature's func-kind marker byte never changes the parse:
after `j` of the declared signatures have been consumed, the next byte is the
marker of signature `j+1`, and its value is irrelevant. -/
lemma c10_sig_marker (h8 : List Nat) (hl : h8.length = 8) (tg sz cnt j : Nat)
    (sigsPre : List Nat) (ss : List Ty) (x y : Nat) (r : List Nat)
    (hj : parse_sigs j (sigsPre ++ (x :: r)) = .ok (ss, x :: r)) (hjc : j < cnt) :
    parse_binary (h8 ++ (tg :: sz :: cnt :: (sigsPre ++ (x :: r)))) =
      parse_binary (h8 ++ (tg :: sz :: cnt :: (sigsPre ++ (y :: r)))) := by
  rcases check_header_split h8 hl with hok | ⟨e, herr⟩
  · simp only [parse_binary, hok]
    suffices hts : parse_type_section (tg :: sz :: cnt :: (sigsPre ++ (x :: r))) =
        parse_type_section (tg :: sz :: cnt :: (sigsPre ++ (y :: r))) by
      rw [hts]
    by_cases htg : tg = SectionId.TYPE
    case neg => simp [parse_type_section, readByte, htg]
    case pos =>
      subst htg
      simp only [parse_type_section, readByte]
      rw [if_neg (by simp)]
      rw [if_neg (by simp)]
      obtain ⟨p, hpeq, hp⟩ := parse_sigs_pd j _ _ _ hj
      obtain rfl : sigsPre = p := List.append_cancel_right hpeq
      have hcnt : cnt = j + (cnt - j) := by omega
      rw [hcnt, parse_sigs_split j (cnt - j) (sigsPre ++ (x :: r)),
        parse_sigs_split j (cnt - j) (sigsPre ++ (y :: r))]
      simp only [hj, hp (y :: r)]
      have hk : cnt - j = (cnt - j - 1) + 1 := by omega
      rw [hk]
      suffices h1 : parse_sigs ((cnt - j - 1) + 1) (x :: r) =
          parse_sigs ((cnt - j - 1) + 1) (y :: r) by
        rw [h1]
      simp only [parse_sigs]
      rw [sig_marker_core x y r]
  · simp only [parse_binary, herr]

/-- Changing any export entry's reserved byte (the byte after the name)
never changes the parse: after `j` of the declared exports have been
consumed, the next entry is a length byte, its name, the reserved byte and
the kind byte, and the reserved byte's value is irrelevant. -/
lemma c10_export_zero (h8 : List Nat) (hl : h8.length = 8) (tpre fpre : List Nat)
    (ts : List Ty) (fi : List Int) (tg sz cnt j : Nat) (exPre : List Nat)
    (es : List Export) (L : Nat) (name : List Nat) (z z' : Nat) (r : List Nat)
    (hty : parse_type_section
        (tpre ++ (fpre ++ (tg :: sz :: cnt :: (exPre ++ (L :: (name ++ (z :: r))))))) =
      .ok (ts, fpre ++ (tg :: sz :: cnt :: (exPre ++ (L :: (name ++ (z :: r)))))))
    (hfn : parse_func_section
        (fpre ++ (tg :: sz :: cnt :: (exPre ++ (L :: (name ++ (z :: r)))))) =
      .ok (fi, tg :: sz :: cnt :: (exPre ++ (L :: (name ++ (z :: r))))))
    (hexp : parse_exports j (exPre ++ (L :: (name ++ (z :: r)))) =
      .ok (es, L :: (name ++ (z :: r))))
    (hjc : j < cnt) (hL : name.length = L) :
    parse_binary
        (h8 ++ (tpre ++ (fpre ++ (tg :: sz :: cnt :: (exPre ++ (L :: (name ++ (z :: r)))))))) =
      parse_binary
        (h8 ++ (tpre ++ (fpre ++ (tg :: sz :: cnt :: (exPre ++ (L :: (name ++ (z' :: r)))))))) := by
  rcases check_header_split h8 hl with hok | ⟨e, herr⟩
  · obtain ⟨p1, hpeq1, hp1⟩ := parse_type_section_pd _ _ _ hty
    obtain rfl : tpre = p1 := List.append_cancel_right hpeq1
    obtain ⟨p2, hpeq2, hp2⟩ := parse_func_section_pd _ _ _ hfn
    obtain rfl : fpre = p2 := List.append_cancel_right hpeq2
    simp only [parse_binary, hok, hp1, hp2]
    suffices hes : parse_export_section (tg :: sz :: cnt :: (exPre ++ (L :: (name ++ (z :: r))))) =
        parse_export_section (tg :: sz :: cnt :: (exPre ++ (L :: (name ++ (z' :: r))))) by
      rw [hes]
    by_cases htg : tg = SectionId.EXPORT
    case neg => simp [parse_export_section, readByte, htg]
    case pos =>
      subst htg
      simp only [parse_export_section, readByte]
      rw [if_neg (by simp)]
      rw [if_neg (by simp)]
      obtain ⟨p3, hpeq3, hp3⟩ := parse_exports_pd j _ _ _ hexp
      obtain rfl : exPre = p3 := List.append_cancel_right hpeq3
      have hcnt : cnt = j + (cnt - j) := by omega
      rw [hcnt, parse_exports_split j (cnt - j) (exPre ++ (L :: (name ++ (z :: r)))),
        parse_exports_split j (cnt - j) (exPre ++ (L :: (name ++ (z' :: r))))]
      simp only [hexp, hp3 (L :: (name ++ (z' :: r)))]
      have hk : cnt - j = (cnt - j - 1) + 1 := by omega
      rw [hk]
      suffices h1 : parse_exports ((cnt - j - 1) + 1) (L :: (name ++ (z :: r))) =
          parse_exports ((cnt - j - 1) + 1) (L :: (name ++ (z' :: r))) by
        rw [h1]
      simp only [parse_exports]
      rw [export_zero_core L name z z' r hL]
  · simp only [parse_binary, herr]

/-- Changing any code entry's body-size byte never changes the parse: after
`j` of the declared bodies have been consumed, the next byte is the size
byte of body `j+1`, and its value is irrelevant. -/
lemma c10_body_size (h8 : List Nat) (hl : h8.length = 8) (tpre fpre epre : List Nat)
    (ts : List Ty) (fi : List Int) (es : List Export) (tg sz cnt j : Nat)
    (bodiesPre : List Nat) (cs : List (StackType × List Instr)) (x y : Nat) (r : List Nat)
    (hty : parse_type_section
        (tpre ++ (fpre ++ (epre ++ (tg :: sz :: cnt :: (bodiesPre ++ (x :: r)))))) =
      .ok (ts, fpre ++ (epre ++ (tg :: sz :: cnt :: (bodiesPre ++ (x :: r))))))
    (hfn : parse_func_section
        (fpre ++ (epre ++ (tg :: sz :: cnt :: (bodiesPre ++ (x :: r))))) =
      .ok (fi, epre ++ (tg :: sz :: cnt :: (bodiesPre ++ (x :: r)))))
    (hexp : parse_export_section (epre ++ (tg :: sz :: cnt :: (bodiesPre ++ (x :: r)))) =
      .ok (es, tg :: sz :: cnt :: (bodiesPre ++ (x :: r))))
    (hbod : parse_bodies j (bodiesPre ++ (x :: r)) = .ok (cs, x :: r))
    (hjc : j < cnt) :
    parse_binary
        (h8 ++ (tpre ++ (fpre ++ (epre ++ (tg :: sz :: cnt :: (bodiesPre ++ (x :: r))))))) =
      parse_binary
        (h8 ++ (tpre ++ (fpre ++ (epre ++ (tg :: sz :: cnt :: (bodiesPre ++ (y :: r))))))) := by
  rcases check_header_split h8 hl with hok | ⟨e, herr⟩
  · obtain ⟨p1, hpeq1, hp1⟩ := parse_type_section_pd _ _ _ hty
    obtain rfl : tpre = p1 := List.append_cancel_right hpeq1
    obtain ⟨p2, hpeq2, hp2⟩ := parse_func_section_pd _ _ _ hfn
    obtain rfl : fpre = p2 := List.append_cancel_right hpeq2
    obtain ⟨p3, hpeq3, hp3⟩ := parse_export_section_pd _ _ _ hexp
    obtain rfl : epre = p3 := List.append_cancel_right hpeq3
    simp only [parse_binary, hok, hp1, hp2, hp3]
    suffices hcs : parse_code_section (tg :: sz :: cnt :: (bodiesPre ++ (x :: r))) =
        parse_code_section (tg :: sz :: cnt :: (bodiesPre ++ (y :: r))) by
      rw [hcs]
    by_cases htg : tg = SectionId.CODE
    case neg => simp [parse_code_section, readByte, htg]
    case pos =>
      subst htg
      simp only [parse_code_section, readByte]
      rw [if_neg (by simp)]
      rw [if_neg (by simp)]
      obtain ⟨p4, hpeq4, hp4⟩ := parse_bodies_pd j _ _ _ hbod
      obtain rfl : bodiesPre = p4 := List.append_cancel_right hpeq4
      have hcnt : cnt = j + (cnt - j) := by omega
      rw [hcnt, parse_bodies_split j (cnt - j) (bodiesPre ++ (x :: r)),
        parse_bodies_split j (cnt - j) (bodiesPre ++ (y :: r))]
      simp only [hbod, hp4 (y :: r)]
      have hk : cnt - j = (cnt - j - 1) + 1 := by omega
      rw [hk]
      suffices h1 : parse_bodies ((cnt - j - 1) + 1) (x :: r) =
          parse_bodies ((cnt - j - 1) + 1) (y :: r) by
        rw [h1]
      simp only [parse_bodies]
      rw [body_size_core x y r]
  · simp only [parse_binary, herr]

/-- C10: the decoded result of `parse_binary` is independent of every byte the
decoder reads but never inspects.  Two buffers that differ only in such a
byte parse identically (same module or same error): the four section-size
bytes (one per section, at its position after that section's tag), any
signature's func-kind marker byte in the Type section, any export entry's
reserved byte, and any code entry's body-size byte.  Each ignored position is
located by the parses that lead up to it; `h8` is the 8-byte header region. -/
theorem claim_C10_ignored_bytes :
    (∀ (h8 : List Nat), h8.length = 8 → ∀ (t x y : Nat) (r : List Nat),
      parse_binary (h8 ++ (t :: x :: r)) = parse_binary (h8 ++ (t :: y :: r))) ∧
    (∀ (h8 : List Nat), h8.length = 8 → ∀ (tpre : List Nat) (ts : List Ty)
        (t x y : Nat) (r : List Nat),
      parse_type_section (tpre ++ (t :: x :: r)) = .ok (ts, t :: x :: r) →
      parse_binary (h8 ++ (tpre ++ (t :: x :: r))) =
        parse_binary (h8 ++ (tpre ++ (t :: y :: r)))) ∧
    (∀ (h8 : List Nat), h8.length = 8 → ∀ (tpre fpre : List Nat) (ts : List Ty)
        (fi : List Int) (t x y : Nat) (r : List Nat),
      parse_type_section (tpre ++ (fpre ++ (t :: x :: r))) =
        .ok (ts, fpre ++ (t :: x :: r)) →
      parse_func_section (fpre ++ (t :: x :: r)) = .ok (fi, t :: x :: r) →
      parse_binary (h8 ++ (tpre ++ (fpre ++ (t :: x :: r)))) =
        parse_binary (h8 ++ (tpre ++ (fpre ++ (t :: y :: r))))) ∧
    (∀ (h8 : List Nat), h8.length = 8 → ∀ (tpre fpre epre : List Nat) (ts : List Ty)
        (fi : List Int) (es : List Export) (t x y : Nat) (r : List Nat),
      parse_type_section (tpre ++ (fpre ++ (epre ++ (t :: x :: r)))) =
        .ok (ts, fpre ++ (epre ++ (t :: x :: r))) →
      parse_func_section (fpre ++ (epre ++ (t :: x :: r))) =
        .ok (fi, epre ++ (t :: x :: r)) →
      parse_export_section (epre ++ (t :: x :: r)) = .ok (es, t :: x :: r) →
      parse_binary (h8 ++ (tpre ++ (fpre ++ (epre ++ (t :: x :: r))))) =
        parse_binary (h8 ++ (tpre ++ (fpre ++ (epre ++ (t :: y :: r)))))) ∧
    (∀ (h8 : List Nat), h8.length = 8 → ∀ (tg sz cnt j : Nat) (sigsPre : List Nat)
        (ss : List Ty) (x y : Nat) (r : List Nat),
      parse_sigs j (sigsPre ++ (x :: r)) = .ok (ss, x :: r) → j < cnt →
      parse_binary (h8 ++ (tg :: sz :: cnt :: (sigsPre ++ (x :: r)))) =
        parse_binary (h8 ++ (tg :: sz :: cnt :: (sigsPre ++ (y :: r))))) ∧
    (∀ (h8 : List Nat), h8.length = 8 → ∀ (tpre fpre : List Nat) (ts : List Ty)
        (fi : List Int) (tg sz cnt j : Nat) (exPre : List Nat) (es : List Export)
        (L : Nat) (name : List Nat) (z z' : Nat) (r : List Nat),
      parse_type_section
          (tpre ++ (fpre ++ (tg :: sz :: cnt :: (exPre ++ (L :: (name ++ (z :: r))))))) =
        .ok (ts, fpre ++ (tg :: sz :: cnt :: (exPre ++ (L :: (name ++ (z :: r)))))) →
      parse_func_section
          (fpre ++ (tg :: sz :: cnt :: (exPre ++ (L :: (name ++ (z :: r)))))) =
        .ok (fi, tg :: sz :: cnt :: (exPre ++ (L :: (name ++ (z :: r))))) →
      parse_exports j (exPre ++ (L :: (name ++ (z :: r)))) =
        .ok (es, L :: (name ++ (z :: r))) →
      j < cnt → name.length = L →
      parse_binary
          (h8 ++ (tpre ++ (fpre ++ (tg :: sz :: cnt :: (exPre ++ (L :: (name ++ (z :: r)))))))) =
        parse_binary
          (h8 ++ (tpre ++ (fpre ++ (tg :: sz :: cnt :: (exPre ++ (L :: (name ++ (z' :: r))))))))) ∧
    (∀ (h8 : List Nat), h8.length = 8 → ∀ (tpre fpre epre : List Nat) (ts : List Ty)
        (fi : List Int) (es : List Export) (tg sz cnt j : Nat) (bodiesPre : List Nat)
        (cs : List (StackType × List Instr)) (x y : Nat) (r : List Nat),
      parse_type_section
          (tpre ++ (fpre ++ (epre ++ (tg :: sz :: cnt :: (bodiesPre ++ (x :: r)))))) =
        .ok (ts, fpre ++ (epre ++ (tg :: sz :: cnt :: (bodiesPre ++ (x :: r))))) →
      parse_func_section
          (fpre ++ (epre ++ (tg :: sz :: cnt :: (bodiesPre ++ (x :: r))))) =
        .ok (fi, epre ++ (tg :: sz :: cnt :: (bodiesPre ++ (x :: r)))) →
      parse_export_section (epre ++ (tg :: sz :: cnt :: (bodiesPre ++ (x :: r)))) =
        .ok (es, tg :: sz :: cnt :: (bodiesPre ++ (x :: r))) →
      parse_bodies j (bodiesPre ++ (x :: r)) = .ok (cs, x :: r) → j < cnt →
      parse_binary
          (h8 ++ (tpre ++ (fpre ++ (epre ++ (tg :: sz :: cnt :: (bodiesPre ++ (x :: r))))))) =
        parse_binary
          (h8 ++ (tpre ++ (fpre ++ (epre ++ (tg :: sz :: cnt :: (bodiesPre ++ (y :: r)))))))) :=
  ⟨fun h8 hl t x y r => c10_type_size h8 hl t x y r,
   fun h8 hl tpre ts t x y r hty => c10_func_size h8 hl tpre ts t x y r hty,
   fun h8 hl tpre fpre ts fi t x y r hty hfn =>
     c10_export_size h8 hl tpre fpre ts fi t x y r hty hfn,
   fun h8 hl tpre fpre epre ts fi es t x y r hty hfn hexp =>
     c10_code_size h8 hl tpre fpre epre ts fi es t x y r hty hfn hexp,
   fun h8 hl tg sz cnt j sigsPre ss x y r hj hjc =>
     c10_sig_marker h8 hl tg sz cnt j sigsPre ss x y r hj hjc,
   fun h8 hl tpre fpre ts fi tg sz cnt j exPre es L name z z' r hty hfn hexp hjc hL =>
     c10_export_zero h8 hl tpre fpre ts fi tg sz cnt j exPre es L name z z' r
       hty hfn hexp hjc hL,
   fun h8 hl tpre fpre epre ts fi es tg sz cnt j bodiesPre cs x y r hty hfn hexp hbod hjc =>
     c10_body_size h8 hl tpre fpre epre ts fi es tg sz cnt j bodiesPre cs x y r
       hty hfn hexp hbod hjc⟩

/-- C10 witness: two concrete instances — changing the Type section's size
byte of a truncated buffer, and changing the func-kind marker byte of the
full "add" module's single signature — leave `parse_binary`'s result
unchanged. -/
theorem claim_C10_witness :
    parse_binary [0x00, 0x61, 0x73, 0x6d, 0x01, 0x00, 0x00, 0x00, 0x01, 0x07] =
      parse_binary [0x00, 0x61, 0x73, 0x6d, 0x01, 0x00, 0x00, 0x00, 0x01, 0x09] ∧
    parse_binary ([0x00, 0x61, 0x73, 0x6d, 0x01, 0x00, 0x00, 0x00] ++
        (0x01 :: 0x07 :: 0x01 :: ([] ++ (0x60 ::
          [0x02, 0x7f, 0x7f, 0x01, 0x7f, 0x03, 0x02, 0x01, 0x00,
           0x07, 0x07, 0x01, 0x03, 0x61, 0x64, 0x64, 0x00, 0x00,
           0x0a, 0x09, 0x01, 0x07, 0x00, 0x20, 0x00, 0x20, 0x01, 0x6a, 0x0b])))) =
      parse_binary ([0x00, 0x61, 0x73, 0x6d, 0x01, 0x00, 0x00, 0x00] ++
        (0x01 :: 0x07 :: 0x01 :: ([] ++ (0x61 ::
          [0x02, 0x7f, 0x7f, 0x01, 0x7f, 0x03, 0x02, 0x01, 0x00,
           0x07, 0x07, 0x01, 0x03, 0x61, 0x64, 0x64, 0x00, 0x00,
           0x0a, 0x09, 0x01, 0x07, 0x00, 0x20, 0x00, 0x20, 0x01, 0x6a, 0x0b])))) :=
  ⟨claim_C10_ignored_bytes.1 [0x00, 0x61, 0x73, 0x6d, 0x01, 0x00, 0x00, 0x00] rfl
     0x01 0x07 0x09 [],
   claim_C10_ignored_bytes.2.2.2.2.1 [0x00, 0x61, 0x73, 0x6d, 0x01, 0x00, 0x00, 0x00] rfl
     0x01 0x07 0x01 0 [] [] 0x60 0x61
     [0x02, 0x7f, 0x7f, 0x01, 0x7f, 0x03, 0x02, 0x01, 0x00,
      0x07, 0x07, 0x01, 0x03, 0x61, 0x64, 0x64, 0x00, 0x00,
      0x0a, 0x09, 0x01, 0x07, 0x00, 0x20, 0x00, 0x20, 0x01, 0x6a, 0x0b] rfl (by decide)⟩

/-! ## `UnexpectedEndOfInput` is unreachable under the source's discipline

`disassembler.rs` constructs `ModuleToShort`, the two header errors,
`InvalidSectionCode`, `InvalidValueType`, `InvalidInstruction`,
`InvalidExportName` and `InvalidExportType` — never `UnexpectedEndOfInput`.
With the reads embedded as the call sites pin them down, no run of the
decoder can return that error. -/

lemma readByteP_noUEOI (bs : List Nat) : readByteP bs ≠ .err .UnexpectedEndOfInput := by
  intro h
  cases bs <;> simp [readByteP] at h

lemma readBytesP_noUEOI (bs : List Nat) (n : Nat) :
    readBytesP bs n ≠ .err .UnexpectedEndOfInput := by
  intro h
  unfold readBytesP at h
  split at h <;> simp at h

lemma readDwordP_noUEOI (bs : List Nat) : readDwordP bs ≠ .err .UnexpectedEndOfInput := by
  intro h
  unfold readDwordP at h
  split at h <;> simp at h

lemma check_headerP_noUEOI (bs : List Nat) :
    check_headerP bs ≠ .err .UnexpectedEndOfInput := by
  intro h
  unfold check_headerP at h
  split at h
  · simp at h
  · split at h
    · rename_i e heq
      simp only [PResult.err.injEq] at h
      subst h
      exact readBytesP_noUEOI _ _ heq
    · simp at h
    · split at h
      · simp at h
      · split at h
        · rename_i e heq
          simp only [PResult.err.injEq] at h
          subst h
          exact readDwordP_noUEOI _ heq
        · simp at h
        · split at h <;> simp at h

lemma parse_valuetypeP_noUEOI (bs : List Nat) :
    parse_valuetypeP bs ≠ .err .UnexpectedEndOfInput := by
  intro h
  unfold parse_valuetypeP at h
  split at h
  · rename_i e heq
    simp only [PResult.err.injEq] at h
    subst h
    exact readByteP_noUEOI _ heq
  · simp at h
  · split at h
    · simp at h
    · split at h <;> simp at h

lemma parse_valuetypesP_noUEOI (n : Nat) :
    ∀ bs : List Nat, parse_valuetypesP n bs ≠ .err .UnexpectedEndOfInput := by
  induction n with
  | zero =>
    intro bs h
    simp [parse_valuetypesP] at h
  | succ n ih =>
    intro bs h
    unfold parse_valuetypesP at h
    split at h
    · rename_i e heq
      simp only [PResult.err.injEq] at h
      subst h
      exact parse_valuetypeP_noUEOI _ heq
    · simp at h
    · split at h
      · rename_i e heq
        simp only [PResult.err.injEq] at h
        subst h
        exact ih _ heq
      · simp at h
      · simp at h

lemma parse_sigP_noUEOI (bs : List Nat) : parse_sigP bs ≠ .err .UnexpectedEndOfInput := by
  intro h
  unfold parse_sigP at h
  split at h
  · rename_i e heq
    simp only [PResult.err.injEq] at h
    subst h
    exact readByteP_noUEOI _ heq
  · simp at h
  · split at h
    · rename_i e heq
      simp only [PResult.err.injEq] at h
      subst h
      exact readByteP_noUEOI _ heq
    · simp at h
    · split at h
      · rename_i e heq
        simp only [PResult.err.injEq] at h
        subst h
        exact parse_valuetypesP_noUEOI _ _ heq
      · simp at h
      · split at h
        · rename_i e heq
          simp only [PResult.err.injEq] at h
          subst h
          exact readByteP_noUEOI _ heq
        · simp at h
        · split at h
          · rename_i e heq
            simp only [PResult.err.injEq] at h
            subst h
            exact parse_valuetypesP_noUEOI _ _ heq
          · simp at h
          · simp at h

lemma parse_sigsP_noUEOI (n : Nat) :
    ∀ bs : List Nat, parse_sigsP n bs ≠ .err .UnexpectedEndOfInput := by
  induction n with
  | zero =>
    intro bs h
    simp [parse_sigsP] at h
  | succ n ih =>
    intro bs h
    unfold parse_sigsP at h
    split at h
    · rename_i e heq
      simp only [PResult.err.injEq] at h
      subst h
      exact parse_sigP_noUEOI _ heq
    · simp at h
    · split at h
      · rename_i e heq
        simp only [PResult.err.injEq] at h
        subst h
        exact ih _ heq
      · simp at h
      · simp at h

lemma parse_type_sectionP_noUEOI (bs : List Nat) :
    parse_type_sectionP bs ≠ .err .UnexpectedEndOfInput := by
  intro h
  unfold parse_type_sectionP at h
  split at h
  · rename_i e heq
    simp only [PResult.err.injEq] at h
    subst h
    exact readByteP_noUEOI _ heq
  · simp at h
  · split at h
    · simp at h
    · split at h
      · rename_i e heq
        simp only [PResult.err.injEq] at h
        subst h
        exact readByteP_noUEOI _ heq
      · simp at h
      · split at h
        · rename_i e heq
          simp only [PResult.err.injEq] at h
          subst h
          exact readByteP_noUEOI _ heq
        · simp at h
        · exact parse_sigsP_noUEOI _ _ h

lemma parse_func_indicesP_noUEOI (n : Nat) :
    ∀ bs : List Nat, parse_func_indicesP n bs ≠ .err .UnexpectedEndOfInput := by
  induction n with
  | zero =>
    intro bs h
    simp [parse_func_indicesP] at h
  | succ n ih =>
    intro bs h
    unfold parse_func_indicesP at h
    split at h
    · rename_i e heq
      simp only [PResult.err.injEq] at h
      subst h
      exact readByteP_noUEOI _ heq
    · simp at h
    · split at h
      · rename_i e heq
        simp only [PResult.err.injEq] at h
        subst h
        exact ih _ heq
      · simp at h
      · simp at h

lemma parse_func_sectionP_noUEOI (bs : List Nat) :
    parse_func_sectionP bs ≠ .err .UnexpectedEndOfInput := by
  intro h
  unfold parse_func_sectionP at h
  split at h
  · rename_i e heq
    simp only [PResult.err.injEq] at h
    subst h
    exact readByteP_noUEOI _ heq
  · simp at h
  · split at h
    · simp at h
    · split at h
      · rename_i e heq
        simp only [PResult.err.injEq] at h
        subst h
        exact readByteP_noUEOI _ heq
      · simp at h
      · split at h
        · rename_i e heq
          simp only [PResult.err.injEq] at h
          subst h
          exact readByteP_noUEOI _ heq
        · simp at h
        · exact parse_func_indicesP_noUEOI _ _ h

lemma parse_one_exportP_noUEOI (bs : List Nat) :
    parse_one_exportP bs ≠ .err .UnexpectedEndOfInput := by
  intro h
  unfold parse_one_exportP at h
  split at h
  · rename_i e heq
    simp only [PResult.err.injEq] at h
    subst h
    exact readByteP_noUEOI _ heq
  · simp at h
  · split at h
    · rename_i e heq
      simp only [PResult.err.injEq] at h
      subst h
      exact readBytesP_noUEOI _ _ heq
    · simp at h
    · split at h
      · split at h
        · rename_i e heq
          simp only [PResult.err.injEq] at h
          subst h
          exact readByteP_noUEOI _ heq
        · simp at h
        · split at h
          · rename_i e heq
            simp only [PResult.err.injEq] at h
            subst h
            exact readByteP_noUEOI _ heq
          · simp at h
          · split at h <;> simp at h
      · simp at h

lemma parse_exportsP_noUEOI (n : Nat) :
    ∀ bs : List Nat, parse_exportsP n bs ≠ .err .UnexpectedEndOfInput := by
  induction n with
  | zero =>
    intro bs h
    simp [parse_exportsP] at h
  | succ n ih =>
    intro bs h
    unfold parse_exportsP at h
    split at h
    · rename_i e heq
      simp only [PResult.err.injEq] at h
      subst h
      exact parse_one_exportP_noUEOI _ heq
    · simp at h
    · split at h
      · rename_i e heq
        simp only [PResult.err.injEq] at h
        subst h
        exact ih _ heq
      · simp at h
      · simp at h

lemma parse_export_sectionP_noUEOI (bs : List Nat) :
    parse_export_sectionP bs ≠ .err .UnexpectedEndOfInput := by
  intro h
  unfold parse_export_sectionP at h
  split at h
  · rename_i e heq
    simp only [PResult.err.injEq] at h
    subst h
    exact readByteP_noUEOI _ heq
  · simp at h
  · split at h
    · simp at h
    · split at h
      · rename_i e heq
        simp only [PResult.err.injEq] at h
        subst h
        exact readByteP_noUEOI _ heq
      · simp at h
      · split at h
        · rename_i e heq
          simp only [PResult.err.injEq] at h
          subst h
          exact readByteP_noUEOI _ heq
        · simp at h
        · exact parse_exportsP_noUEOI _ _ h

lemma parse_local_typesP_noUEOI (n : Nat) :
    ∀ bs : List Nat, parse_local_typesP n bs ≠ .err .UnexpectedEndOfInput := by
  induction n with
  | zero =>
    intro bs h
    simp [parse_local_typesP] at h
  | succ n ih =>
    intro bs h
    unfold parse_local_typesP at h
    split at h
    · rename_i e heq
      simp only [PResult.err.injEq] at h
      subst h
      exact readByteP_noUEOI _ heq
    · simp at h
    · split at h
      · rename_i e heq
        simp only [PResult.err.injEq] at h
        subst h
        split at heq
        · simp at heq
        · split at heq <;> simp at heq
      · split at h
        · rename_i e heq
          simp only [PResult.err.injEq] at h
          subst h
          exact ih _ heq
        · simp at h
        · simp at h

lemma parse_instrsP_localget (i : Nat) (r : List Nat) :
    parse_instrsP (0x20 :: i :: r) =
      match parse_instrsP r with
      | .err e => .err e
      | .abort => .abort
      | .ok (instrs, rest) => .ok (.LocalGet i :: instrs, rest) := by
  rw [parse_instrsP.eq_def]
  simp

lemma parse_instrsP_i32add (r : List Nat) :
    parse_instrsP (0x6a :: r) =
      match parse_instrsP r with
      | .err e => .err e
      | .abort => .abort
      | .ok (instrs, rest) => .ok (.I32Add :: instrs, rest) := by
  rw [parse_instrsP.eq_def]
  simp

lemma parse_instrsP_endmark (r : List Nat) : parse_instrsP (0x0b :: r) = .ok ([], r) := by
  rw [parse_instrsP.eq_def]
  simp

lemma parse_instrsP_operand_missing : parse_instrsP [0x20] = .abort := by
  rw [parse_instrsP.eq_def]
  simp

lemma parse_instrsP_noUEOI : ∀ bs : List Nat, parse_instrsP bs ≠ .err .UnexpectedEndOfInput := by
  suffices hfuel : ∀ (n : Nat) (bs : List Nat), bs.length ≤ n →
      parse_instrsP bs ≠ .err .UnexpectedEndOfInput by
    intro bs
    exact hfuel bs.length bs le_rfl
  intro n
  induction n with
  | zero =>
    intro bs hlen h
    obtain rfl : bs = [] := List.length_eq_zero.mp (Nat.le_zero.mp hlen)
    simp [parse_instrsP] at h
  | succ n ih =>
    intro bs hlen h
    cases bs with
    | nil => simp [parse_instrsP] at h
    | cons b r =>
      by_cases hb1 : b = 0x20
      · subst hb1
        cases r with
        | nil =>
          rw [parse_instrsP_operand_missing] at h
          simp at h
        | cons i r' =>
          rw [parse_instrsP_localget] at h
          split at h
          · rename_i e heq
            simp only [PResult.err.injEq] at h
            subst h
            exact ih r' (by simp at hlen; omega) heq
          · simp at h
          · simp at h
      · by_cases hb2 : b = 0x6a
        · subst hb2
          rw [parse_instrsP_i32add] at h
          split at h
          · rename_i e heq
            simp only [PResult.err.injEq] at h
            subst h
            exact ih r (by simp at hlen; omega) heq
          · simp at h
          · simp at h
        · by_cases hb3 : b = 0x0b
          · subst hb3
            rw [parse_instrsP_endmark] at h
            simp at h
          · rw [parse_instrsP.eq_def] at h
            simp [hb1, hb2, hb3] at h

lemma parse_bodyP_noUEOI (bs : List Nat) : parse_bodyP bs ≠ .err .UnexpectedEndOfInput := by
  intro h
  unfold parse_bodyP at h
  split at h
  · rename_i e heq
    simp only [PResult.err.injEq] at h
    subst h
    exact readByteP_noUEOI _ heq
  · simp at h
  · split at h
    · rename_i e heq
      simp only [PResult.err.injEq] at h
      subst h
      exact readByteP_noUEOI _ heq
    · simp at h
    · split at h
      · rename_i e heq
        simp only [PResult.err.injEq] at h
        subst h
        exact parse_local_typesP_noUEOI _ _ heq
      · simp at h
      · split at h
        · rename_i e heq
          simp only [PResult.err.injEq] at h
          subst h
          exact parse_instrsP_noUEOI _ heq
        · simp at h
        · simp at h

lemma parse_bodiesP_noUEOI (n : Nat) :
    ∀ bs : List Nat, parse_bodiesP n bs ≠ .err .UnexpectedEndOfInput := by
  induction n with
  | zero =>
    intro bs h
    simp [parse_bodiesP] at h
  | succ n ih =>
    intro bs h
    unfold parse_bodiesP at h
    split at h
    · rename_i e heq
      simp only [PResult.err.injEq] at h
      subst h
      exact parse_bodyP_noUEOI _ heq
    · simp at h
    · split at h
      · rename_i e heq
        simp only [PResult.err.injEq] at h
        subst h
        exact ih _ heq
      · simp at h
      · simp at h

lemma parse_code_sectionP_noUEOI (bs : List Nat) :
    parse_code_sectionP bs ≠ .err .UnexpectedEndOfInput := by
  intro h
  unfold parse_code_sectionP at h
  split at h
  · rename_i e heq
    simp only [PResult.err.injEq] at h
    subst h
    exact readByteP_noUEOI _ heq
  · simp at h
  · split at h
    · simp at h
    · split at h
      · rename_i e heq
        simp only [PResult.err.injEq] at h
        subst h
        exact readByteP_noUEOI _ heq
      · simp at h
      · split at h
        · rename_i e heq
          simp only [PResult.err.injEq] at h
          subst h
          exact readByteP_noUEOI _ heq
        · simp at h
        · exact parse_bodiesP_noUEOI _ _ h

lemma parse_binaryP_noUEOI (bs : List Nat) :
    parse_binaryP bs ≠ .err .UnexpectedEndOfInput := by
  intro h
  unfold parse_binaryP at h
  split at h
  · rename_i e heq
    simp only [PResult.err.injEq] at h
    subst h
    exact check_headerP_noUEOI _ heq
  · simp at h
  · split at h
    · rename_i e heq
      simp only [PResult.err.injEq] at h
      subst h
      exact parse_type_sectionP_noUEOI _ heq
    · simp at h
    · split at h
      · rename_i e heq
        simp only [PResult.err.injEq] at h
        subst h
        exact parse_func_sectionP_noUEOI _ heq
      · simp at h
      · split at h
        · rename_i e heq
          simp only [PResult.err.injEq] at h
          subst h
          exact parse_export_sectionP_noUEOI _ heq
        · simp at h
        · split at h
          · rename_i e heq
            simp only [PResult.err.injEq] at h
            subst h
            exact parse_code_sectionP_noUEOI _ heq
          · simp at h
          · split at h <;> simp at h

/-- C4 counterexample: the truncated buffer of the claim — a valid 8-byte
header followed by the Type tag and nothing more.  Under the source's
reading discipline (reads are plain values, exhaustion is a reader-side
panic) decoding it aborts; it does not return the typed error
`UnexpectedEndOfInput` the claim promises. -/
theorem claim_C4_counterexample :
    parse_binaryP [0x00, 0x61, 0x73, 0x6d, 0x01, 0x00, 0x00, 0x00, 0x01] = .abort ∧
    parse_binaryP [0x00, 0x61, 0x73, 0x6d, 0x01, 0x00, 0x00, 0x00, 0x01] ≠
      .err .UnexpectedEndOfInput := by
  exact ⟨rfl, by decide⟩

/-- C4 (amended): when fewer bytes remain than a read requests, the read is a
reader-side panic, not an error value — `byte()` on an exhausted input,
`dword()` with fewer than 4 bytes, `bytes(n)` with fewer than `n` bytes all
abort — and decoding a truncated buffer terminates in that panic: the
concrete truncated buffer aborts, and no input whatsoever makes the decoder
return `UnexpectedEndOfInput`, an error `disassembler.rs` never constructs. -/
theorem claim_C4_truncation_panics :
    readByteP [] = .abort ∧
    (∀ bs : List Nat, bs.length < 4 → readDwordP bs = .abort) ∧
    (∀ (bs : List Nat) (n : Nat), bs.length < n → readBytesP bs n = .abort) ∧
    parse_binaryP [0x00, 0x61, 0x73, 0x6d, 0x01, 0x00, 0x00, 0x00, 0x01] = .abort ∧
    (∀ bs : List Nat, parse_binaryP bs ≠ .err .UnexpectedEndOfInput) := by
  refine ⟨rfl, ?_, ?_, rfl, parse_binaryP_noUEOI⟩
  · intro bs h
    rcases bs with _ | ⟨a, _ | ⟨b, _ | ⟨c, _ | ⟨d, r⟩⟩⟩⟩
    · rfl
    · rfl
    · rfl
    · rfl
    · simp at h
      omega
  · intro bs n h
    rw [readBytesP, if_neg (by omega)]

/-- C4 witness: the reader-side panics at concrete truncated inputs, and the
absence of `UnexpectedEndOfInput` on a concrete buffer. -/
theorem claim_C4_witness :
    readDwordP [0x01] = .abort ∧
    readBytesP [0x61] 3 = .abort ∧
    parse_binaryP [0x00, 0x01, 0x02] ≠ .err .UnexpectedEndOfInput :=
  ⟨claim_C4_truncation_panics.2.1 [0x01] (by decide),
   claim_C4_truncation_panics.2.2.1 [0x61] 3 (by decide),
   claim_C4_truncation_panics.2.2.2.2 [0x00, 0x01, 0x02]⟩
